import Mathlib

/-!
Verification of the cover-letter generator's draft composer and markup
translator (`generate_cover_letter` and `create_pdf` of
`cover_letter_generator.py`), shallowly embedded over `List Char`.
Python strings are modelled as `List Char`; `str.split(sep)`,
`str.split(sep, 2)`, `str.replace`, `str.strip` and `', '.join` are given
executable counterparts with the same semantics for the separators the
program uses.
-/

namespace CoverLetterGen

set_option maxRecDepth 100000

/-- The characters Python's `str.strip()` removes (ASCII whitespace). -/
def isPySpace (c : Char) : Bool :=
  c = ' ' || c = '\t' || c = '\n' || c = '\r' || c = '\x0b' || c = '\x0c'

/-- Python `s.strip()`: drop whitespace from both ends. -/
def pyStrip (l : List Char) : List Char :=
  ((l.dropWhile isPySpace).reverse.dropWhile isPySpace).reverse

/-- Cons a character onto the first chunk of a split result. -/
def consChunk (c : Char) (l : List (List Char)) : List (List Char) :=
  match l with
  | [] => [[c]]
  | h :: t => (c :: h) :: t

/-- Python `s.split(sep)` for a two-character separator `[a, b]`:
leftmost, non-overlapping occurrences; empty chunks are kept. -/
def splitOn2 (a b : Char) : List Char → List (List Char)
  | c :: d :: rest =>
    if c = a ∧ d = b then [] :: splitOn2 a b rest
    else consChunk c (splitOn2 a b (d :: rest))
  | [c] => [[c]]
  | [] => [[]]

/-- Python `s.split(sep, maxsplit)` for a two-character separator:
at most `n` split points, counted from the left. -/
def splitOn2B (a b : Char) : Nat → List Char → List (List Char)
  | 0, s => [s]
  | Nat.succ n, c :: d :: rest =>
    if c = a ∧ d = b then [] :: splitOn2B a b n rest
    else consChunk c (splitOn2B a b (Nat.succ n) (d :: rest))
  | Nat.succ _, [c] => [[c]]
  | Nat.succ _, [] => [[]]

/-- Python `s.replace('\n', '<br/>')` (line 141 / 166 of the source). -/
def replaceNl : List Char → List Char
  | [] => []
  | c :: rest =>
    if c = '\n' then '<' :: 'b' :: 'r' :: '/' :: '>' :: replaceNl rest
    else c :: replaceNl rest

/-- Python `s.replace('<b><b>', '<b>')` (line 157): leftmost,
non-overlapping; the scan resumes after the replacement text. -/
def collapseBB : List Char → List Char
  | '<' :: 'b' :: '>' :: '<' :: 'b' :: '>' :: rest => '<' :: 'b' :: '>' :: collapseBB rest
  | c :: rest => c :: collapseBB rest
  | [] => []

/-- Python `s.replace('</b></b>', '</b>')` (line 157). -/
def collapseBBc : List Char → List Char
  | '<' :: '/' :: 'b' :: '>' :: '<' :: '/' :: 'b' :: '>' :: rest =>
    '<' :: '/' :: 'b' :: '>' :: collapseBBc rest
  | c :: rest => c :: collapseBBc rest
  | [] => []

/-- The `for chunk in html_para.split('**')` loop of lines 146-154: chunks
are emitted alternately as-is and wrapped in `<b>`/`</b>`, starting
with the `in_bold` flag given. -/
def boldJoin : List (List Char) → Bool → List Char
  | [], _ => []
  | c :: cs, false => c ++ boldJoin cs true
  | c :: cs, true =>
    '<' :: 'b' :: '>' :: (c ++ '<' :: '/' :: 'b' :: '>' :: boldJoin cs false)

/-- Python `', '.join(xs)`. -/
def joinComma : List (List Char) → List Char
  | [] => []
  | [x] => x
  | x :: xs => x ++ ',' :: ' ' :: joinComma xs

/-- A string literal as a character list. -/
def strL (s : String) : List Char := s.data

/-- The fixed contact header prepended by `generate_cover_letter`
(lines 80-84 of the source). -/
def professional_header : List Char :=
  strL "**[Your Name]**\n[Your Phone Number] | [Your Email Address]\n[Your LinkedIn/Portfolio URL]\n\n"

/-- The mock letter f-string of lines 62-77, with the interpolation slots
made explicit (in order: job_title, company, company,
`', '.join(skills[:2])`, tone, `', '.join(skills)`, tone, company). -/
def mock_letter (job_title company : List Char) (skills : List (List Char))
    (tone : List Char) : List Char :=
  strL "\n    Dear Hiring Team,\n\n    I am writing to express my enthusiastic interest in the **"
  ++ job_title
  ++ strL "** position at **"
  ++ company
  ++ strL "**. Having closely followed "
  ++ company
  ++ strL "'s innovative work in [Relevant Industry], I am highly motivated by the opportunity to contribute my proven track record in "
  ++ joinComma (skills.take 2)
  ++ strL ", which align directly with the core demands of this role. My experience is centered on driving tangible results and leveraging technical expertise to achieve business objectives.\n\n    Throughout my career, I have consistently exceeded performance goals by focusing on measurable impact. For instance, in a previous role, I successfully [elaborate on a key achievement from the Experience Summary] resulting in a **[use a number/percentage, e.g., 25%] increase in [metric, e.g., operational efficiency]** and **[use another measurable outcome, e.g., $50,000] in cost savings** over a fiscal year. I am confident in my ability to bring the same level of **"
  ++ tone
  ++ strL "** drive and commitment to excellence to your team, immediately addressing the need for a professional skilled in [another highlighted skill].\n\n    # FIX 2: Joining the full list of skills back into a comma-separated string for display\n    My specific technical abilities, including **"
  ++ joinComma skills
  ++ strL "**, are perfectly suited to the challenges outlined in the job description, especially in the areas of [mention a specific challenge or requirement]. I excel at translating complex technical requirements into actionable plans and thrive in fast-paced environments where **"
  ++ tone
  ++ strL "** problem-solving is critical. This blend of hands-on skill and strategic thinking positions me as an ideal candidate.\n\n    I am eager for the opportunity to discuss how my background can directly benefit "
  ++ company
  ++ strL ". Thank you for your time and consideration.\n\n    Sincerely,\n\n    [Your Name]\n    "

/-- `generate_cover_letter` (lines 13-86): the professional header
concatenated with the stripped mock letter.  `experience` and
`job_description` flow into the (unused) prompt strings only, never into
the returned text. -/
def generate_cover_letter (job_title company : List Char) (skills : List (List Char))
    (experience tone job_description : List Char) : List Char :=
  professional_header ++ pyStrip (mock_letter job_title company skills tone)

/-- The rendering role a block is given in `create_pdf`: the `Header`
style or the `Body_Justify` style. -/
inductive Role where
  | Header : Role
  | Body : Role
deriving DecidableEq, Repr

/-- One `Paragraph` flowable handed to the renderer: its markup text and
its style. -/
structure StyledBlock where
  text : List Char
  role : Role
deriving DecidableEq, Repr

/-- Lines 141-157: replace newlines by `<br/>`, split on `**`, emit the
chunks alternately plain and bold-wrapped, then collapse doubled
`<b><b>` and `</b></b>`. -/
def genericHtml (p : List Char) : List Char :=
  collapseBBc (collapseBB (boldJoin (splitOn2 '*' '*' (replaceNl p)) false))

/-- Lines 141-166: the markup produced for one block.  `first` is
`paragraphs[0]`; a block equal to it takes the header fast path when the
bounded split `para_text.split('**', 2)` has exactly 3 parts, and the
generic algorithm otherwise. -/
def blockHtml (first p : List Char) : List Char :=
  if p = first then
    match splitOn2B '*' '*' 2 p with
    | [_, name, rest] =>
      '<' :: 'b' :: '>' :: (name ++ '<' :: '/' :: 'b' :: '>' :: '<' :: 'b' :: 'r' :: '/' :: '>' :: replaceNl rest)
    | _ => genericHtml p
  else genericHtml p

/-- Lines 124-176 of `create_pdf`: split the draft on blank lines, drop
whitespace-only blocks, and style each survivor.  `paragraphs.index(para_text) == 0`
holds exactly when the block equals `paragraphs[0]`. -/
def translate (draft : List Char) : List StyledBlock :=
  let paragraphs := splitOn2 '\n' '\n' draft
  let first := paragraphs.headD []
  paragraphs.filterMap (fun p =>
    if pyStrip p = [] then none
    else some ⟨blockHtml first p, if p = first then Role.Header else Role.Body⟩)

/-- Lines 96-187: the document is built from the translated blocks by the
external renderer (`doc.build`); an exception there is caught and `None`
is returned, otherwise the buffer's bytes are returned.  The renderer is
a parameter of the model. -/
def create_pdf (render : List StyledBlock → Except String (List Nat))
    (cover_letter_text : List Char) : Option (List Nat) :=
  match render (translate cover_letter_text) with
  | Except.error _ => none
  | Except.ok bytes => some bytes

/-- The spec's positional description of emphasis styling (§4.2 step 4):
segment `i` (0-based) is literal when `i` is even and bold-wrapped when
`i` is odd. -/
def specAltWrap (i : Nat) (seg : List Char) : List Char :=
  if i % 2 = 0 then seg else strL "<b>" ++ seg ++ strL "</b>"

/-- A token of the produced markup: a bold-open tag, a bold-close tag, a
line break, or one plain character. -/
inductive Tok where
  | tagOpen : Tok
  | tagClose : Tok
  | lineBr : Tok
  | ch : Char → Tok
deriving DecidableEq, Repr

/-- The characters of one token. -/
def Tok.chars : Tok → List Char
  | Tok.tagOpen => ['<', 'b', '>']
  | Tok.tagClose => ['<', '/', 'b', '>']
  | Tok.lineBr => ['<', 'b', 'r', '/', '>']
  | Tok.ch c => [c]

/-- Flatten a token sequence into its markup text. -/
def flatToks (ts : List Tok) : List Char := (ts.map Tok.chars).flatten

/-- The token view of `replaceNl`: each newline becomes a `lineBr`. -/
def nlToks (p : List Char) : List Tok :=
  p.map fun c => if c = '\n' then Tok.lineBr else Tok.ch c

/-- Cons a token onto the first chunk of a token-level split. -/
def consTok (t : Tok) (l : List (List Tok)) : List (List Tok) :=
  match l with
  | [] => [[t]]
  | h :: r => (t :: h) :: r

/-- The token view of `splitOn2 '*' '*'`: a delimiter is two adjacent
`'*'` character tokens. -/
def splitToks : List Tok → List (List Tok)
  | Tok.ch c :: Tok.ch d :: rest =>
    if c = '*' ∧ d = '*' then [] :: splitToks rest
    else consTok (Tok.ch c) (splitToks (Tok.ch d :: rest))
  | t :: rest => consTok t (splitToks rest)
  | [] => [[]]

/-- The token view of `boldJoin`. -/
def boldToks : List (List Tok) → Bool → List Tok
  | [], _ => []
  | c :: cs, false => c ++ boldToks cs true
  | c :: cs, true => Tok.tagOpen :: (c ++ Tok.tagClose :: boldToks cs false)

/-- Prepend characters onto the first chunk of a split result. -/
def prependChunk (xs : List Char) (l : List (List Char)) : List (List Char) :=
  match l with
  | [] => [xs]
  | h :: r => (xs ++ h) :: r

/-- A token is a tag. -/
def Tok.isTag : Tok → Prop := fun t => t = Tok.tagOpen ∨ t = Tok.tagClose

/-- The adjacency discipline of produced token sequences: no two opens in
a row and no two closes in a row. -/
def okPair : Tok → Tok → Prop := fun a b =>
  ¬ (a = Tok.tagOpen ∧ b = Tok.tagOpen) ∧ ¬ (a = Tok.tagClose ∧ b = Tok.tagClose)

theorem consChunk_ne_nil (c : Char) (l : List (List Char)) : consChunk c l ≠ [] := by
  cases l <;> simp [consChunk]

theorem splitOn2_ne_nil (a b : Char) (s : List Char) : splitOn2 a b s ≠ [] := by
  induction s using splitOn2.induct a b with
  | case1 c d rest h ih => simp [splitOn2, h]
  | case2 c d rest h ih => simp only [splitOn2, if_neg h]; exact consChunk_ne_nil _ _
  | case3 c => simp [splitOn2]
  | case4 => simp [splitOn2]

theorem mem_consChunk {x : Char} {L : List (List Char)} {l : List Char}
    (hl : l ∈ consChunk x L) {e : Char} (he : e ∈ l) :
    e = x ∨ ∃ l' ∈ L, e ∈ l' := by
  cases L with
  | nil =>
    simp [consChunk] at hl
    subst hl
    simp at he
    exact Or.inl he
  | cons h t =>
    simp [consChunk] at hl
    rcases hl with hl | hl
    · subst hl
      rcases List.mem_cons.mp he with he | he
      · exact Or.inl he
      · exact Or.inr ⟨h, by simp, he⟩
    · exact Or.inr ⟨l, by simp [hl], he⟩

theorem splitOn2_subset (a b : Char) (s : List Char) :
    ∀ l ∈ splitOn2 a b s, ∀ e ∈ l, e ∈ s := by
  induction s using splitOn2.induct a b with
  | case1 c d rest h ih =>
    intro l hl e he
    rw [splitOn2, if_pos h] at hl
    rcases List.mem_cons.mp hl with hl | hl
    · subst hl; cases he
    · exact List.mem_cons_of_mem _ (List.mem_cons_of_mem _ (ih l hl e he))
  | case2 c d rest h ih =>
    intro l hl e he
    rw [splitOn2, if_neg h] at hl
    rcases mem_consChunk hl he with rfl | ⟨l', hl', he'⟩
    · exact List.mem_cons_self _ _
    · exact List.mem_cons_of_mem _ (ih l' hl' e he')
  | case3 c =>
    intro l hl e he
    simp [splitOn2] at hl
    subst hl
    exact he
  | case4 =>
    intro l hl e he
    simp [splitOn2] at hl
    subst hl
    cases he

theorem splitOn2B_subset (a b : Char) (n : Nat) (s : List Char) :
    ∀ l ∈ splitOn2B a b n s, ∀ e ∈ l, e ∈ s := by
  induction n, s using splitOn2B.induct a b with
  | case1 s =>
    intro l hl e he
    simp [splitOn2B] at hl
    subst hl
    exact he
  | case2 n c d rest h ih =>
    intro l hl e he
    rw [splitOn2B, if_pos h] at hl
    rcases List.mem_cons.mp hl with hl | hl
    · subst hl; cases he
    · exact List.mem_cons_of_mem _ (List.mem_cons_of_mem _ (ih l hl e he))
  | case3 n c d rest h ih =>
    intro l hl e he
    rw [splitOn2B, if_neg h] at hl
    rcases mem_consChunk hl he with rfl | ⟨l', hl', he'⟩
    · exact List.mem_cons_self _ _
    · exact List.mem_cons_of_mem _ (ih l' hl' e he')
  | case4 n c =>
    intro l hl e he
    simp [splitOn2B] at hl
    subst hl
    exact he
  | case5 n =>
    intro l hl e he
    simp [splitOn2B] at hl
    subst hl
    cases he

theorem pyStrip_eq_nil_iff (l : List Char) : pyStrip l = [] ↔ ∀ c ∈ l, isPySpace c := by
  unfold pyStrip
  rw [List.reverse_eq_nil_iff, List.dropWhile_eq_nil_iff]
  constructor
  · intro h c hc
    have hsplit := List.takeWhile_append_dropWhile (p := isPySpace) (l := l)
    rw [← hsplit] at hc
    rcases List.mem_append.mp hc with hc | hc
    · exact List.mem_takeWhile_imp hc
    · exact h c (List.mem_reverse.mpr hc)
  · intro h c hc
    exact h c ((List.dropWhile_suffix isPySpace).subset (List.mem_reverse.mp hc))

/-! ### C1: the alternating emphasis conversion -/

theorem boldJoin_mapIdx (cs : List (List Char)) :
    boldJoin cs false = (cs.mapIdx specAltWrap).flatten ∧
    boldJoin cs true = (cs.mapIdx fun i => specAltWrap (i + 1)).flatten := by
  induction cs with
  | nil => simp [boldJoin]
  | cons c cs ih =>
    have hshift : (fun i => specAltWrap (i + 1 + 1)) = specAltWrap := by
      funext i seg
      show specAltWrap (i + 2) seg = specAltWrap i seg
      simp [specAltWrap, Nat.add_mod_right]
    have h0 : specAltWrap 0 c = c := by simp [specAltWrap]
    have h1 : specAltWrap 1 c = strL "<b>" ++ c ++ strL "</b>" := by simp [specAltWrap]
    constructor
    · rw [boldJoin, List.mapIdx_cons, List.flatten_cons, ih.2, h0]
    · rw [boldJoin, List.mapIdx_cons, List.flatten_cons, hshift, ← ih.1, h1]
      simp [strL, List.append_assoc]

/-- C1: within a block, the emphasis conversion of lines 146-155 splits on
the literal `**` delimiter and assigns styles purely by position: 0-based
even segments are emitted literally and odd segments are wrapped in a
`<b>`/`</b>` pair; consequently, when the number of `**` occurrences is odd
(an even number of resulting segments), the final segment is emitted as a
bolded tail. -/
theorem c1_emphasis_positional (s : List Char) :
    boldJoin (splitOn2 '*' '*' s) false
      = ((splitOn2 '*' '*' s).mapIdx specAltWrap).flatten ∧
    ((splitOn2 '*' '*' s).length % 2 = 0 →
      ∃ pre, boldJoin (splitOn2 '*' '*' s) false
        = pre ++ (strL "<b>" ++ (splitOn2 '*' '*' s).getLastD [] ++ strL "</b>")) := by
  refine ⟨(boldJoin_mapIdx _).1, fun heven => ?_⟩
  set cs := splitOn2 '*' '*' s with hcs
  have hne : cs ≠ [] := splitOn2_ne_nil '*' '*' s
  have hdecomp : cs.dropLast ++ [cs.getLast hne] = cs := List.dropLast_append_getLast hne
  refine ⟨(cs.dropLast.mapIdx specAltWrap).flatten, ?_⟩
  rw [(boldJoin_mapIdx cs).1]
  conv_lhs => rw [← hdecomp]
  rw [List.mapIdx_append, List.flatten_append]
  have hlen : cs.dropLast.length = cs.length - 1 := List.length_dropLast cs
  have hodd : cs.dropLast.length % 2 = 1 := by
    have hpos : 0 < cs.length := List.length_pos.mpr hne
    rw [hlen]
    omega
  have hlast : cs.getLastD [] = cs.getLast hne := by
    rw [List.getLastD_eq_getLast?, List.getLast?_eq_getLast cs hne]
    rfl
  congr 1
  simp only [List.mapIdx_cons, List.mapIdx_nil, List.flatten_cons, List.flatten_nil,
    List.append_nil, Nat.zero_add]
  rw [hlast, specAltWrap, if_neg (by omega)]

/-- Witness for C1 at the spec's own odd-delimiter example `"a**b**c**d"`. -/
theorem c1_emphasis_positional_witness :
    (splitOn2 '*' '*' (strL "a**b**c**d")).length % 2 = 0 ∧
    ∃ pre, boldJoin (splitOn2 '*' '*' (strL "a**b**c**d")) false
      = pre ++ (strL "<b>" ++ (splitOn2 '*' '*' (strL "a**b**c**d")).getLastD [] ++ strL "</b>") :=
  ⟨by decide, (c1_emphasis_positional (strL "a**b**c**d")).2 (by decide)⟩

/-! ### C5: totality and whitespace-only drafts -/

/-- C5: `translate` is a total function of the draft (it is defined for
every `List Char`), and any draft consisting only of whitespace produces
the empty block sequence. -/
theorem c5_whitespace_empty (draft : List Char) (h : ∀ c ∈ draft, isPySpace c) :
    translate draft = [] := by
  simp only [translate]
  rw [List.filterMap_eq_nil_iff]
  intro p hp
  have hps : pyStrip p = [] :=
    (pyStrip_eq_nil_iff p).mpr fun c hc => h c (splitOn2_subset _ _ _ p hp c hc)
  simp [hps]

/-- Witness for C5 at the spec's two examples, `""` and `"   \n\n  "`. -/
theorem c5_whitespace_empty_witness :
    ((∀ c ∈ strL "   \n\n  ", isPySpace c) ∧ translate (strL "   \n\n  ") = []) ∧
    ((∀ c ∈ ([] : List Char), isPySpace c) ∧ translate [] = []) :=
  ⟨⟨by decide, c5_whitespace_empty _ (by decide)⟩,
   ⟨by decide, c5_whitespace_empty [] (by decide)⟩⟩

/-! ### C2: header classification -/

theorem filterMap_roles_replicate (f : List Char → Option StyledBlock)
    (l : List (List Char))
    (h : ∀ p ∈ l, ∀ b, f p = some b → b.role = Role.Body) :
    (l.filterMap f).map StyledBlock.role
      = List.replicate (l.filterMap f).length Role.Body := by
  induction l with
  | nil => simp
  | cons p l ih =>
    rw [List.filterMap_cons]
    cases hf : f p with
    | none => exact ih fun q hq => h q (List.mem_cons_of_mem _ hq)
    | some b =>
      simp only [List.map_cons, List.length_cons, List.replicate_succ]
      rw [h p (List.mem_cons_self ..) b hf,
        ih fun q hq => h q (List.mem_cons_of_mem _ hq)]

/-- C2 counterexample: classification is not positional.  A draft whose
first raw block is whitespace-only yields no Header block at all, and a
draft whose second block equals the first yields two Header blocks. -/
theorem c2_counterexample :
    (translate (strL " \n\nB")).map StyledBlock.role = [Role.Body] ∧
    (translate (strL "A\n\nA")).map StyledBlock.role = [Role.Header, Role.Header] :=
  ⟨by decide, by decide⟩

/-- C2 amended: a surviving block is styled `Header` exactly when its text
equals the first raw block (`paragraphs.index(para_text) == 0` compares by
value).  Hence, provided the first raw block is not whitespace-only and no
later raw block equals it, the output has exactly one Header block and it
comes first, with every subsequent block a Body block. -/
theorem c2_amended (draft : List Char)
    (h1 : pyStrip ((splitOn2 '\n' '\n' draft).headD []) ≠ [])
    (h2 : ∀ p ∈ (splitOn2 '\n' '\n' draft).tail, p ≠ (splitOn2 '\n' '\n' draft).headD []) :
    (translate draft).map StyledBlock.role
      = Role.Header :: List.replicate ((translate draft).length - 1) Role.Body := by
  rcases hps : splitOn2 '\n' '\n' draft with _ | ⟨first, rest⟩
  · exact absurd hps (splitOn2_ne_nil _ _ _)
  rw [hps] at h1 h2
  simp only [List.headD_cons, List.tail_cons] at h1 h2
  have htr : translate draft
      = ⟨blockHtml first first, Role.Header⟩ ::
        rest.filterMap (fun p =>
          if pyStrip p = [] then none
          else some ⟨blockHtml first p, if p = first then Role.Header else Role.Body⟩) := by
    simp only [translate, hps, List.headD_cons, List.filterMap_cons]
    simp [if_neg h1]
  rw [htr]
  simp only [List.map_cons, List.length_cons, Nat.add_sub_cancel]
  congr 1
  exact filterMap_roles_replicate _ rest fun p hp b hb => by
    by_cases hstrip : pyStrip p = []
    · simp [hstrip] at hb
    · simp only [if_neg hstrip, if_neg (h2 p hp), Option.some.injEq] at hb
      rw [← hb]

/-- Witness for C2 at a two-block draft with a distinct non-blank header. -/
theorem c2_amended_witness :
    (pyStrip ((splitOn2 '\n' '\n' (strL "Head\n\nBody")).headD []) ≠ [] ∧
     ∀ p ∈ (splitOn2 '\n' '\n' (strL "Head\n\nBody")).tail,
       p ≠ (splitOn2 '\n' '\n' (strL "Head\n\nBody")).headD []) ∧
    (translate (strL "Head\n\nBody")).map StyledBlock.role
      = Role.Header :: List.replicate ((translate (strL "Head\n\nBody")).length - 1) Role.Body :=
  ⟨⟨by decide, by decide⟩, c2_amended _ (by decide) (by decide)⟩

/-! ### C4: the header example -/

/-- C4 counterexample: the header fast path (line 166) emits its own
`<br/>` after the bolded name and additionally converts the newline that
begins the remainder, so the claimed markup is not what the code
produces. -/
theorem c4_counterexample :
    (translate (strL "**Jane Doe**\nphone | email\nurl")).map StyledBlock.text
      ≠ [strL "<b>Jane Doe</b><br/>phone | email<br/>url"] := by decide

/-- C4 amended: the draft `"**Jane Doe**\nphone | email\nurl"` translates
to a single Header block whose markup is
`<b>Jane Doe</b><br/><br/>phone | email<br/>url`: one bold run around the
name, a fixed `<br/>` appended by the fast path, then each original
newline rendered as one further `<br/>`. -/
theorem c4_amended :
    translate (strL "**Jane Doe**\nphone | email\nurl")
      = [⟨strL "<b>Jane Doe</b><br/><br/>phone | email<br/>url", Role.Header⟩] := by decide

/-! ### C6 and C10: the header fast path -/

/-- C6: for a first block, when the bounded split `para_text.split('**', 2)`
does not yield exactly 3 parts the block is rendered by the generic
alternating algorithm (which is total by construction); when it yields
exactly 3 parts, the middle part is bolded and the remainder is appended
with newlines converted to `<br/>`. -/
theorem c6_header_fallback (p : List Char) :
    ((splitOn2B '*' '*' 2 p).length ≠ 3 → blockHtml p p = genericHtml p) ∧
    (∀ x y z, splitOn2B '*' '*' 2 p = [x, y, z] →
      blockHtml p p = strL "<b>" ++ y ++ strL "</b><br/>" ++ replaceNl z) := by
  constructor
  · intro hlen
    rw [blockHtml, if_pos rfl]
    rcases hsp : splitOn2B '*' '*' 2 p with _ | ⟨a, _ | ⟨b, _ | ⟨c, _ | ⟨d, l⟩⟩⟩⟩
    · rfl
    · rfl
    · rfl
    · exact absurd (by rw [hsp]; rfl) hlen
    · rfl
  · intro x y z hsp
    rw [blockHtml, if_pos rfl, hsp]
    simp [strL, List.append_assoc]

/-- Witness for C6: a delimiter-free first block falls back to the generic
algorithm, and a well-formed header takes the fast path. -/
theorem c6_header_fallback_witness :
    ((splitOn2B '*' '*' 2 (strL "plain")).length ≠ 3 ∧
     blockHtml (strL "plain") (strL "plain") = genericHtml (strL "plain")) ∧
    (splitOn2B '*' '*' 2 (strL "**Jane**\nrest") = [[], strL "Jane", strL "\nrest"] ∧
     blockHtml (strL "**Jane**\nrest") (strL "**Jane**\nrest")
       = strL "<b>" ++ strL "Jane" ++ strL "</b><br/>" ++ replaceNl (strL "\nrest")) :=
  ⟨⟨by decide, (c6_header_fallback _).1 (by decide)⟩,
   ⟨by decide, (c6_header_fallback (strL "**Jane**\nrest")).2 [] (strL "Jane") (strL "\nrest") (by decide)⟩⟩

/-- C10: the header fast path silently discards the text before the first
`**`: the emitted Header markup is built only from the bolded middle part
and the converted remainder, so two first blocks whose bounded splits
differ only in the leading part produce identical markup. -/
theorem c10_header_discards_leading (p p' x x' y z : List Char)
    (hp : splitOn2B '*' '*' 2 p = [x, y, z])
    (hp' : splitOn2B '*' '*' 2 p' = [x', y, z])
    (hx : x ≠ []) :
    blockHtml p p = blockHtml p' p' ∧
    blockHtml p p = strL "<b>" ++ y ++ strL "</b><br/>" ++ replaceNl z := by
  constructor
  · rw [blockHtml, if_pos rfl, hp, blockHtml, if_pos rfl, hp']
  · rw [blockHtml, if_pos rfl, hp]
    simp [strL, List.append_assoc]

/-- Witness for C10: `"LEAD**Jane Doe**rest"` renders identically to
`"**Jane Doe**rest"` as a first block: the leading `"LEAD"` is gone. -/
theorem c10_header_discards_leading_witness :
    (splitOn2B '*' '*' 2 (strL "LEAD**Jane Doe**rest")
       = [strL "LEAD", strL "Jane Doe", strL "rest"] ∧
     splitOn2B '*' '*' 2 (strL "**Jane Doe**rest")
       = [[], strL "Jane Doe", strL "rest"] ∧
     strL "LEAD" ≠ ([] : List Char)) ∧
    blockHtml (strL "LEAD**Jane Doe**rest") (strL "LEAD**Jane Doe**rest")
      = blockHtml (strL "**Jane Doe**rest") (strL "**Jane Doe**rest") :=
  ⟨⟨by decide, by decide, by decide⟩,
   (c10_header_discards_leading (strL "LEAD**Jane Doe**rest") (strL "**Jane Doe**rest")
      (strL "LEAD") [] (strL "Jane Doe") (strL "rest")
      (by decide) (by decide) (by decide)).1⟩

/-! ### C9: render failure handling -/

/-- C9: `create_pdf` either returns the rendered document bytes or `None`;
a failure raised inside the external `doc.build` call is caught (lines
178-182) and surfaces as `None`, never as an uncaught exception. -/
theorem c9_render_failure_caught (render : List StyledBlock → Except String (List Nat))
    (text : List Char) :
    (∃ e, render (translate text) = Except.error e ∧ create_pdf render text = none) ∨
    (∃ bs, render (translate text) = Except.ok bs ∧ create_pdf render text = some bs) := by
  cases h : render (translate text) with
  | error e => exact Or.inl ⟨e, rfl, by simp [create_pdf, h]⟩
  | ok bs => exact Or.inr ⟨bs, rfl, by simp [create_pdf, h]⟩

/-! ### C8: the composer's template structure -/

theorem pyStrip_concat (A A' Z Z' mid : List Char)
    (hA : A.dropWhile isPySpace = A') (hA' : A' ≠ [])
    (hZ : Z.reverse.dropWhile isPySpace = Z'.reverse) (hZ' : Z' ≠ []) :
    pyStrip (A ++ mid ++ Z) = A' ++ mid ++ Z' := by
  unfold pyStrip
  rw [List.append_assoc, List.dropWhile_append, hA,
    if_neg (by simp [List.isEmpty_iff, hA'])]
  rw [List.reverse_append, List.reverse_append, List.append_assoc,
    List.dropWhile_append, hZ,
    if_neg (by simp [List.isEmpty_iff, hZ'])]
  rw [List.reverse_append, List.reverse_append, List.reverse_reverse,
    List.reverse_reverse, List.reverse_reverse]

/-- The composer's output with the strip of the mock letter evaluated:
the fixed header, a blank line, then the stripped letter body. -/
theorem gcl_stripped (job_title company : List Char)
    (skills : List (List Char)) (experience tone job_description : List Char) :
    generate_cover_letter job_title company skills experience tone job_description
      = strL "**[Your Name]**\n[Your Phone Number] | [Your Email Address]\n[Your LinkedIn/Portfolio URL]"
        ++ strL "\n\n"
        ++ (strL "Dear Hiring Team,\n\n    I am writing to express my enthusiastic interest in the **"
        ++ job_title
        ++ strL "** position at **"
        ++ company
        ++ strL "**. Having closely followed "
        ++ company
        ++ strL "'s innovative work in [Relevant Industry], I am highly motivated by the opportunity to contribute my proven track record in "
        ++ joinComma (skills.take 2)
        ++ strL ", which align directly with the core demands of this role. My experience is centered on driving tangible results and leveraging technical expertise to achieve business objectives.\n\n    Throughout my career, I have consistently exceeded performance goals by focusing on measurable impact. For instance, in a previous role, I successfully [elaborate on a key achievement from the Experience Summary] resulting in a **[use a number/percentage, e.g., 25%] increase in [metric, e.g., operational efficiency]** and **[use another measurable outcome, e.g., $50,000] in cost savings** over a fiscal year. I am confident in my ability to bring the same level of **"
        ++ tone
        ++ strL "** drive and commitment to excellence to your team, immediately addressing the need for a professional skilled in [another highlighted skill].\n\n    # FIX 2: Joining the full list of skills back into a comma-separated string for display\n    My specific technical abilities, including **"
        ++ joinComma skills
        ++ strL "**, are perfectly suited to the challenges outlined in the job description, especially in the areas of [mention a specific challenge or requirement]. I excel at translating complex technical requirements into actionable plans and thrive in fast-paced environments where **"
        ++ tone
        ++ strL "** problem-solving is critical. This blend of hands-on skill and strategic thinking positions me as an ideal candidate.\n\n    I am eager for the opportunity to discuss how my background can directly benefit "
        ++ company
        ++ strL ". Thank you for your time and consideration.\n\n    Sincerely,\n\n    [Your Name]") := by
  unfold generate_cover_letter mock_letter professional_header
  rw [show (strL "\n    Dear Hiring Team,\n\n    I am writing to express my enthusiastic interest in the **"
      ++ job_title
      ++ strL "** position at **"
      ++ company
      ++ strL "**. Having closely followed "
      ++ company
      ++ strL "'s innovative work in [Relevant Industry], I am highly motivated by the opportunity to contribute my proven track record in "
      ++ joinComma (skills.take 2)
      ++ strL ", which align directly with the core demands of this role. My experience is centered on driving tangible results and leveraging technical expertise to achieve business objectives.\n\n    Throughout my career, I have consistently exceeded performance goals by focusing on measurable impact. For instance, in a previous role, I successfully [elaborate on a key achievement from the Experience Summary] resulting in a **[use a number/percentage, e.g., 25%] increase in [metric, e.g., operational efficiency]** and **[use another measurable outcome, e.g., $50,000] in cost savings** over a fiscal year. I am confident in my ability to bring the same level of **"
      ++ tone
      ++ strL "** drive and commitment to excellence to your team, immediately addressing the need for a professional skilled in [another highlighted skill].\n\n    # FIX 2: Joining the full list of skills back into a comma-separated string for display\n    My specific technical abilities, including **"
      ++ joinComma skills
      ++ strL "**, are perfectly suited to the challenges outlined in the job description, especially in the areas of [mention a specific challenge or requirement]. I excel at translating complex technical requirements into actionable plans and thrive in fast-paced environments where **"
      ++ tone
      ++ strL "** problem-solving is critical. This blend of hands-on skill and strategic thinking positions me as an ideal candidate.\n\n    I am eager for the opportunity to discuss how my background can directly benefit "
      ++ company
      ++ strL ". Thank you for your time and consideration.\n\n    Sincerely,\n\n    [Your Name]\n    ")
      = strL "\n    Dear Hiring Team,\n\n    I am writing to express my enthusiastic interest in the **"
        ++ (job_title
          ++ strL "** position at **"
          ++ company
          ++ strL "**. Having closely followed "
          ++ company
          ++ strL "'s innovative work in [Relevant Industry], I am highly motivated by the opportunity to contribute my proven track record in "
          ++ joinComma (skills.take 2)
          ++ strL ", which align directly with the core demands of this role. My experience is centered on driving tangible results and leveraging technical expertise to achieve business objectives.\n\n    Throughout my career, I have consistently exceeded performance goals by focusing on measurable impact. For instance, in a previous role, I successfully [elaborate on a key achievement from the Experience Summary] resulting in a **[use a number/percentage, e.g., 25%] increase in [metric, e.g., operational efficiency]** and **[use another measurable outcome, e.g., $50,000] in cost savings** over a fiscal year. I am confident in my ability to bring the same level of **"
          ++ tone
          ++ strL "** drive and commitment to excellence to your team, immediately addressing the need for a professional skilled in [another highlighted skill].\n\n    # FIX 2: Joining the full list of skills back into a comma-separated string for display\n    My specific technical abilities, including **"
          ++ joinComma skills
          ++ strL "**, are perfectly suited to the challenges outlined in the job description, especially in the areas of [mention a specific challenge or requirement]. I excel at translating complex technical requirements into actionable plans and thrive in fast-paced environments where **"
          ++ tone
          ++ strL "** problem-solving is critical. This blend of hands-on skill and strategic thinking positions me as an ideal candidate.\n\n    I am eager for the opportunity to discuss how my background can directly benefit "
          ++ company)
        ++ strL ". Thank you for your time and consideration.\n\n    Sincerely,\n\n    [Your Name]\n    " from by simp [List.append_assoc]]
  rw [pyStrip_concat (strL "\n    Dear Hiring Team,\n\n    I am writing to express my enthusiastic interest in the **")
      (strL "Dear Hiring Team,\n\n    I am writing to express my enthusiastic interest in the **")
      (strL ". Thank you for your time and consideration.\n\n    Sincerely,\n\n    [Your Name]\n    ")
      (strL ". Thank you for your time and consideration.\n\n    Sincerely,\n\n    [Your Name]")
      _ (by decide) (by decide) (by decide) (by decide)]
  rw [show strL "**[Your Name]**\n[Your Phone Number] | [Your Email Address]\n[Your LinkedIn/Portfolio URL]\n\n"
      = strL "**[Your Name]**\n[Your Phone Number] | [Your Email Address]\n[Your LinkedIn/Portfolio URL]" ++ strL "\n\n" from by decide]
  simp [List.append_assoc]

/-- C8: for any input with a non-empty skills list, the composer's output
is the fixed three-line contact header (name wrapped in one `**` pair),
a blank line, and a body in which the joined first two skills appear in
the first body paragraph, the full comma-joined skills list appears in a
later paragraph, and the tone string is inserted verbatim at exactly the
two template points shown. -/
theorem c8_composer_structure (job_title company : List Char)
    (skills : List (List Char)) (experience tone job_description : List Char)
    (hsk : skills ≠ []) :
    generate_cover_letter job_title company skills experience tone job_description
      = strL "**[Your Name]**\n[Your Phone Number] | [Your Email Address]\n[Your LinkedIn/Portfolio URL]"
        ++ strL "\n\n"
        ++ (strL "Dear Hiring Team,\n\n    I am writing to express my enthusiastic interest in the **"
        ++ job_title
        ++ strL "** position at **"
        ++ company
        ++ strL "**. Having closely followed "
        ++ company
        ++ strL "'s innovative work in [Relevant Industry], I am highly motivated by the opportunity to contribute my proven track record in "
        ++ joinComma (skills.take 2)
        ++ strL ", which align directly with the core demands of this role. My experience is centered on driving tangible results and leveraging technical expertise to achieve business objectives.\n\n    Throughout my career, I have consistently exceeded performance goals by focusing on measurable impact. For instance, in a previous role, I successfully [elaborate on a key achievement from the Experience Summary] resulting in a **[use a number/percentage, e.g., 25%] increase in [metric, e.g., operational efficiency]** and **[use another measurable outcome, e.g., $50,000] in cost savings** over a fiscal year. I am confident in my ability to bring the same level of **"
        ++ tone
        ++ strL "** drive and commitment to excellence to your team, immediately addressing the need for a professional skilled in [another highlighted skill].\n\n    # FIX 2: Joining the full list of skills back into a comma-separated string for display\n    My specific technical abilities, including **"
        ++ joinComma skills
        ++ strL "**, are perfectly suited to the challenges outlined in the job description, especially in the areas of [mention a specific challenge or requirement]. I excel at translating complex technical requirements into actionable plans and thrive in fast-paced environments where **"
        ++ tone
        ++ strL "** problem-solving is critical. This blend of hands-on skill and strategic thinking positions me as an ideal candidate.\n\n    I am eager for the opportunity to discuss how my background can directly benefit "
        ++ company
        ++ strL ". Thank you for your time and consideration.\n\n    Sincerely,\n\n    [Your Name]") :=
  gcl_stripped job_title company skills experience tone job_description

/-- Witness for C8 at a one-skill input. -/
theorem c8_composer_structure_witness :
    ([strL "S"] : List (List Char)) ≠ [] ∧
    generate_cover_letter (strL "T") (strL "C") [strL "S"] (strL "E") (strL "N") []
      = strL "**[Your Name]**\n[Your Phone Number] | [Your Email Address]\n[Your LinkedIn/Portfolio URL]"
        ++ strL "\n\n"
        ++ (strL "Dear Hiring Team,\n\n    I am writing to express my enthusiastic interest in the **"
        ++ strL "T"
        ++ strL "** position at **"
        ++ strL "C"
        ++ strL "**. Having closely followed "
        ++ strL "C"
        ++ strL "'s innovative work in [Relevant Industry], I am highly motivated by the opportunity to contribute my proven track record in "
        ++ joinComma ([strL "S"].take 2)
        ++ strL ", which align directly with the core demands of this role. My experience is centered on driving tangible results and leveraging technical expertise to achieve business objectives.\n\n    Throughout my career, I have consistently exceeded performance goals by focusing on measurable impact. For instance, in a previous role, I successfully [elaborate on a key achievement from the Experience Summary] resulting in a **[use a number/percentage, e.g., 25%] increase in [metric, e.g., operational efficiency]** and **[use another measurable outcome, e.g., $50,000] in cost savings** over a fiscal year. I am confident in my ability to bring the same level of **"
        ++ strL "N"
        ++ strL "** drive and commitment to excellence to your team, immediately addressing the need for a professional skilled in [another highlighted skill].\n\n    # FIX 2: Joining the full list of skills back into a comma-separated string for display\n    My specific technical abilities, including **"
        ++ joinComma [strL "S"]
        ++ strL "**, are perfectly suited to the challenges outlined in the job description, especially in the areas of [mention a specific challenge or requirement]. I excel at translating complex technical requirements into actionable plans and thrive in fast-paced environments where **"
        ++ strL "N"
        ++ strL "** problem-solving is critical. This blend of hands-on skill and strategic thinking positions me as an ideal candidate.\n\n    I am eager for the opportunity to discuss how my background can directly benefit "
        ++ strL "C"
        ++ strL ". Thank you for your time and consideration.\n\n    Sincerely,\n\n    [Your Name]") :=
  ⟨by decide,
   c8_composer_structure (strL "T") (strL "C") [strL "S"] (strL "E") (strL "N") [] (by decide)⟩

/-! ### C3: infrastructure for computing the blank-line split of the
composer's output -/

theorem singleton_prefix_iff (v : Char) (z : List Char) :
    [v] <+: z ↔ z.head? = some v := by
  cases z with
  | nil => simp
  | cons a t => simp [List.cons_prefix_cons, eq_comm]

theorem infix2_append_iff (u v : Char) (x y : List Char) :
    [u, v] <:+: x ++ y ↔
      [u, v] <:+: x ∨ [u, v] <:+: y ∨ (x.getLast? = some u ∧ y.head? = some v) := by
  induction x with
  | nil =>
    simp only [List.nil_append, List.getLast?_nil]
    constructor
    · exact fun h => Or.inr (Or.inl h)
    · rintro (h | h | ⟨h, -⟩)
      · rcases h with ⟨s, t, ht⟩
        simp at ht
      · exact h
      · cases h
  | cons c x' ih =>
    rw [List.cons_append, List.infix_cons_iff]
    constructor
    · rintro (h | h)
      · rw [List.cons_prefix_cons] at h
        obtain ⟨rfl, h⟩ := h
        cases x' with
        | nil =>
          rw [List.nil_append, singleton_prefix_iff] at h
          exact Or.inr (Or.inr ⟨rfl, h⟩)
        | cons d x'' =>
          rw [List.cons_append, singleton_prefix_iff, List.head?_cons,
            Option.some.injEq] at h
          subst h
          exact Or.inl ((List.cons_prefix_cons.mpr
            ⟨rfl, List.cons_prefix_cons.mpr ⟨rfl, List.nil_prefix⟩⟩).isInfix)
      · rcases ih.mp h with h | h | ⟨h1, h2⟩
        · exact Or.inl (List.infix_cons h)
        · exact Or.inr (Or.inl h)
        · have hx' : x' ≠ [] := by
            rintro rfl
            simp at h1
          refine Or.inr (Or.inr ⟨?_, h2⟩)
          cases x' with
          | nil => exact absurd rfl hx'
          | cons d x'' =>
            rw [List.getLast?_cons_cons]
            exact h1
    · rintro (h | h | ⟨h1, h2⟩)
      · rcases List.infix_cons_iff.mp h with h | h
        · rw [List.cons_prefix_cons] at h
          obtain ⟨rfl, hpre⟩ := h
          exact Or.inl (List.cons_prefix_cons.mpr
            ⟨rfl, List.IsPrefix.trans hpre (List.prefix_append x' y)⟩)
        · exact Or.inr (ih.mpr (Or.inl h))
      · exact Or.inr (ih.mpr (Or.inr (Or.inl h)))
      · cases x' with
        | nil =>
          simp only [List.getLast?_singleton, Option.some.injEq] at h1
          subst h1
          rw [List.nil_append]
          rcases z : y with _ | ⟨b, y₀⟩
          · rw [z] at h2; cases h2
          · rw [z] at h2
            simp only [List.head?_cons, Option.some.injEq] at h2
            subst h2
            exact Or.inl (List.cons_prefix_cons.mpr
              ⟨rfl, List.cons_prefix_cons.mpr ⟨rfl, List.nil_prefix⟩⟩)
        | cons d x'' =>
          refine Or.inr (ih.mpr (Or.inr (Or.inr ⟨?_, h2⟩)))
          rw [List.getLast?_cons_cons] at h1
          exact h1

theorem noInfix2_append {u v : Char} {x y : List Char}
    (hx : ¬ [u, v] <:+: x) (hy : ¬ [u, v] <:+: y)
    (hb : y.head? ≠ some v ∨ x.getLast? ≠ some u) :
    ¬ [u, v] <:+: (x ++ y) := by
  rw [infix2_append_iff]
  rintro (h | h | ⟨h1, h2⟩)
  · exact hx h
  · exact hy h
  · rcases hb with hb | hb
    · exact hb h2
    · exact hb h1

theorem noInfix2_snoc {u v : Char} {x : List Char}
    (hx : ¬ [u, v] <:+: x) (hl : x.getLast? ≠ some u) :
    ¬ [u, v] <:+: (x ++ [u]) := by
  rw [infix2_append_iff]
  rintro (h | h | ⟨h1, h2⟩)
  · exact hx h
  · rcases h with ⟨s, t, ht⟩
    have := congrArg List.length ht
    simp at this
    omega
  · exact hl h1

/-- One step of `splitOn2` when the head pair is not the delimiter. -/
theorem splitOn2_cons_of_ne (a b : Char) (c : Char) (l : List Char)
    (h : ∀ d r, l = d :: r → ¬ (c = a ∧ d = b)) :
    splitOn2 a b (c :: l) = consChunk c (splitOn2 a b l) := by
  cases l with
  | nil => rfl
  | cons d r =>
    rw [splitOn2, if_neg (h d r rfl)]

/-- The leftmost delimiter occurrence splits first: if `x` extended by the
first delimiter character contains no delimiter, the split of
`x ++ delim ++ y` is `x` followed by the split of `y`. -/
theorem splitOn2_append (a b : Char) (x y : List Char)
    (h : ¬ [a, b] <:+: (x ++ [a])) :
    splitOn2 a b (x ++ a :: b :: y) = x :: splitOn2 a b y := by
  induction x with
  | nil =>
    rw [List.nil_append, splitOn2, if_pos ⟨rfl, rfl⟩]
  | cons c x' ih =>
    have h' : ¬ [a, b] <:+: (x' ++ [a]) := fun hin =>
      h (List.cons_append c x' [a] ▸ List.infix_cons hin)
    have hstep : splitOn2 a b (c :: (x' ++ a :: b :: y))
        = consChunk c (splitOn2 a b (x' ++ a :: b :: y)) := by
      apply splitOn2_cons_of_ne
      intro d r hdr hcd
      obtain ⟨rfl, rfl⟩ := hcd
      apply h
      cases x' with
      | nil =>
        simp only [List.nil_append] at hdr
        obtain ⟨rfl, -⟩ := List.cons.inj hdr
        exact List.infix_refl _
      | cons e x'' =>
        obtain ⟨rfl, -⟩ := List.cons.inj hdr
        exact List.IsPrefix.isInfix
          (List.cons_prefix_cons.mpr ⟨rfl, List.cons_prefix_cons.mpr
            ⟨rfl, List.nil_prefix⟩⟩)
    rw [List.cons_append, hstep, ih h']
    rfl

/-- A delimiter-free string does not split. -/
theorem splitOn2_eq_single (a b : Char) (z : List Char)
    (h : ¬ [a, b] <:+: z) : splitOn2 a b z = [z] := by
  induction z using splitOn2.induct a b with
  | case1 c d rest hcd ih =>
    exact absurd (List.IsPrefix.isInfix (List.cons_prefix_cons.mpr
      ⟨hcd.1.symm, List.cons_prefix_cons.mpr ⟨hcd.2.symm, List.nil_prefix⟩⟩)) h
  | case2 c d rest hcd ih =>
    rw [splitOn2, if_neg hcd, ih fun hin => h (List.infix_cons hin)]
    rfl
  | case3 c => rfl
  | case4 => rfl

theorem noInfix2_of_short {u v : Char} {l : List Char} (h : l.length < 2) :
    ¬ [u, v] <:+: l := by
  intro hin
  have := hin.length_le
  simp at this
  omega

theorem joinComma_noInfix2 {u v : Char} (hu1 : u ≠ ',') (hu2 : u ≠ ' ') (hv : v ≠ ',')
    (sk : List (List Char)) (h : ∀ x ∈ sk, ¬ [u, v] <:+: x) :
    ¬ [u, v] <:+: joinComma sk := by
  induction sk with
  | nil => exact noInfix2_of_short (by simp [joinComma])
  | cons x xs ih =>
    cases xs with
    | nil => exact h x (List.mem_cons_self ..)
    | cons y ys =>
      rw [show joinComma (x :: y :: ys) = x ++ ',' :: ' ' :: joinComma (y :: ys) from rfl]
      have hJ : ¬ [u, v] <:+: joinComma (y :: ys) :=
        ih fun q hq => h q (List.mem_cons_of_mem _ hq)
      have hsp : ¬ [u, v] <:+: (' ' :: joinComma (y :: ys)) := by
        have := noInfix2_append (x := [' ']) (y := joinComma (y :: ys))
          (noInfix2_of_short (by simp)) hJ
          (Or.inr (by simp only [List.getLast?_singleton, ne_eq, Option.some.injEq]
                      exact fun e => hu2 e.symm))
        simpa using this
      have hcm : ¬ [u, v] <:+: (',' :: ' ' :: joinComma (y :: ys)) := by
        have := noInfix2_append (x := [',']) (y := ' ' :: joinComma (y :: ys))
          (noInfix2_of_short (by simp)) hsp
          (Or.inr (by simp only [List.getLast?_singleton, ne_eq, Option.some.injEq]
                      exact fun e => hu1 e.symm))
        simpa using this
      exact noInfix2_append (h x (List.mem_cons_self ..)) hcm
        (Or.inl (by simp only [List.head?_cons, ne_eq, Option.some.injEq]
                    exact fun e => hv e.symm))

theorem head?_append_ne {x : List Char} (r : List Char) {v : Char}
    (hne : x ≠ []) (hx : x.head? ≠ some v) : (x ++ r).head? ≠ some v := by
  cases x with
  | nil => exact absurd rfl hne
  | cons a t => simpa using hx

theorem head?_append_some {x : List Char} (r : List Char) {a : Char}
    (h : x.head? = some a) : (x ++ r).head? = some a := by
  cases x with
  | nil => simp at h
  | cons b t => simpa using h

theorem getLast?_append_some {y : List Char} (x : List Char) {c : Char}
    (h : y.getLast? = some c) : (x ++ y).getLast? = some c := by
  have hy : y ≠ [] := by
    rintro rfl
    simp at h
  rw [List.getLast?_append_of_ne_nil _ hy, h]

theorem pyStrip_ne_nil_of_mem (c : Char) {l : List Char} (hc : c ∈ l)
    (hns : ¬ isPySpace c) : pyStrip l ≠ [] :=
  fun h => hns ((pyStrip_eq_nil_iff l).mp h c hc)

theorem append_ne_of_head {a b : Char} {x y : List Char} (r : List Char)
    (hx : x.head? = some a) (hy : y.head? = some b) (hab : a ≠ b) :
    (x ++ r) ≠ y := by
  intro e
  apply hab
  have h := congrArg List.head? e
  cases x with
  | nil => simp at hx
  | cons a' t =>
    simp only [List.cons_append, List.head?_cons] at h hx
    rw [hy] at h
    rw [← Option.some.inj hx, Option.some.inj h]

/-- The blank-line split of the composer's output: the contact header and
seven body blocks, provided no input field contains a blank line. -/
theorem composer_split (jt c tn : List Char) (sk : List (List Char))
    (hjt : ¬ ['\n', '\n'] <:+: jt) (hc : ¬ ['\n', '\n'] <:+: c)
    (htn : ¬ ['\n', '\n'] <:+: tn)
    (hsk : ∀ s ∈ sk, ¬ ['\n', '\n'] <:+: s)
    (exp jd : List Char) :
    splitOn2 '\n' '\n' (generate_cover_letter jt c sk exp tn jd)
      = [strL "**[Your Name]**\n[Your Phone Number] | [Your Email Address]\n[Your LinkedIn/Portfolio URL]",
         strL "Dear Hiring Team,",
         strL "    I am writing to express my enthusiastic interest in the **" ++ jt ++ strL "** position at **" ++ c ++ strL "**. Having closely followed " ++ c ++ strL "'s innovative work in [Relevant Industry], I am highly motivated by the opportunity to contribute my proven track record in " ++ joinComma (sk.take 2) ++ strL ", which align directly with the core demands of this role. My experience is centered on driving tangible results and leveraging technical expertise to achieve business objectives.",
         strL "    Throughout my career, I have consistently exceeded performance goals by focusing on measurable impact. For instance, in a previous role, I successfully [elaborate on a key achievement from the Experience Summary] resulting in a **[use a number/percentage, e.g., 25%] increase in [metric, e.g., operational efficiency]** and **[use another measurable outcome, e.g., $50,000] in cost savings** over a fiscal year. I am confident in my ability to bring the same level of **" ++ tn ++ strL "** drive and commitment to excellence to your team, immediately addressing the need for a professional skilled in [another highlighted skill].",
         strL "    # FIX 2: Joining the full list of skills back into a comma-separated string for display\n    My specific technical abilities, including **" ++ joinComma sk ++ strL "**, are perfectly suited to the challenges outlined in the job description, especially in the areas of [mention a specific challenge or requirement]. I excel at translating complex technical requirements into actionable plans and thrive in fast-paced environments where **" ++ tn ++ strL "** problem-solving is critical. This blend of hands-on skill and strategic thinking positions me as an ideal candidate.",
         strL "    I am eager for the opportunity to discuss how my background can directly benefit " ++ c ++ strL ". Thank you for your time and consideration.",
         strL "    Sincerely,",
         strL "    [Your Name]"] := by
  have hj2 : ¬ ['\n', '\n'] <:+: joinComma (sk.take 2) :=
    joinComma_noInfix2 (by decide) (by decide) (by decide) _
      fun q hq => hsk q (List.mem_of_mem_take hq)
  have hj : ¬ ['\n', '\n'] <:+: joinComma sk :=
    joinComma_noInfix2 (by decide) (by decide) (by decide) _ hsk
  have hfull : generate_cover_letter jt c sk exp tn jd
      = strL "**[Your Name]**\n[Your Phone Number] | [Your Email Address]\n[Your LinkedIn/Portfolio URL]" ++ '\n' :: '\n' ::
        (strL "Dear Hiring Team," ++ '\n' :: '\n' ::
        ((strL "    I am writing to express my enthusiastic interest in the **" ++ jt ++ strL "** position at **" ++ c ++ strL "**. Having closely followed " ++ c ++ strL "'s innovative work in [Relevant Industry], I am highly motivated by the opportunity to contribute my proven track record in " ++ joinComma (sk.take 2) ++ strL ", which align directly with the core demands of this role. My experience is centered on driving tangible results and leveraging technical expertise to achieve business objectives.") ++ '\n' :: '\n' ::
        ((strL "    Throughout my career, I have consistently exceeded performance goals by focusing on measurable impact. For instance, in a previous role, I successfully [elaborate on a key achievement from the Experience Summary] resulting in a **[use a number/percentage, e.g., 25%] increase in [metric, e.g., operational efficiency]** and **[use another measurable outcome, e.g., $50,000] in cost savings** over a fiscal year. I am confident in my ability to bring the same level of **" ++ tn ++ strL "** drive and commitment to excellence to your team, immediately addressing the need for a professional skilled in [another highlighted skill].") ++ '\n' :: '\n' ::
        ((strL "    # FIX 2: Joining the full list of skills back into a comma-separated string for display\n    My specific technical abilities, including **" ++ joinComma sk ++ strL "**, are perfectly suited to the challenges outlined in the job description, especially in the areas of [mention a specific challenge or requirement]. I excel at translating complex technical requirements into actionable plans and thrive in fast-paced environments where **" ++ tn ++ strL "** problem-solving is critical. This blend of hands-on skill and strategic thinking positions me as an ideal candidate.") ++ '\n' :: '\n' ::
        ((strL "    I am eager for the opportunity to discuss how my background can directly benefit " ++ c ++ strL ". Thank you for your time and consideration.") ++ '\n' :: '\n' ::
        (strL "    Sincerely," ++ '\n' :: '\n' :: strL "    [Your Name]")))))) := by
    rw [gcl_stripped jt c sk exp tn jd]
    rw [show (strL "Dear Hiring Team,\n\n    I am writing to express my enthusiastic interest in the **" : List Char)
        = strL "Dear Hiring Team," ++ '\n' :: '\n' :: strL "    I am writing to express my enthusiastic interest in the **" from by decide]
    rw [show (strL ", which align directly with the core demands of this role. My experience is centered on driving tangible results and leveraging technical expertise to achieve business objectives.\n\n    Throughout my career, I have consistently exceeded performance goals by focusing on measurable impact. For instance, in a previous role, I successfully [elaborate on a key achievement from the Experience Summary] resulting in a **[use a number/percentage, e.g., 25%] increase in [metric, e.g., operational efficiency]** and **[use another measurable outcome, e.g., $50,000] in cost savings** over a fiscal year. I am confident in my ability to bring the same level of **" : List Char)
        = strL ", which align directly with the core demands of this role. My experience is centered on driving tangible results and leveraging technical expertise to achieve business objectives." ++ '\n' :: '\n' :: strL "    Throughout my career, I have consistently exceeded performance goals by focusing on measurable impact. For instance, in a previous role, I successfully [elaborate on a key achievement from the Experience Summary] resulting in a **[use a number/percentage, e.g., 25%] increase in [metric, e.g., operational efficiency]** and **[use another measurable outcome, e.g., $50,000] in cost savings** over a fiscal year. I am confident in my ability to bring the same level of **" from by decide]
    rw [show (strL "** drive and commitment to excellence to your team, immediately addressing the need for a professional skilled in [another highlighted skill].\n\n    # FIX 2: Joining the full list of skills back into a comma-separated string for display\n    My specific technical abilities, including **" : List Char)
        = strL "** drive and commitment to excellence to your team, immediately addressing the need for a professional skilled in [another highlighted skill]." ++ '\n' :: '\n' :: strL "    # FIX 2: Joining the full list of skills back into a comma-separated string for display\n    My specific technical abilities, including **" from by decide]
    rw [show (strL "** problem-solving is critical. This blend of hands-on skill and strategic thinking positions me as an ideal candidate.\n\n    I am eager for the opportunity to discuss how my background can directly benefit " : List Char)
        = strL "** problem-solving is critical. This blend of hands-on skill and strategic thinking positions me as an ideal candidate." ++ '\n' :: '\n' :: strL "    I am eager for the opportunity to discuss how my background can directly benefit " from by decide]
    rw [show (strL ". Thank you for your time and consideration.\n\n    Sincerely,\n\n    [Your Name]" : List Char)
        = strL ". Thank you for your time and consideration." ++ '\n' :: '\n' ::
          (strL "    Sincerely," ++ '\n' :: '\n' :: strL "    [Your Name]") from by decide]
    rw [show (strL "\n\n" : List Char) = '\n' :: '\n' :: [] from rfl]
    simp only [List.cons_append, List.nil_append, List.append_assoc]
  have hn2 : ¬ ['\n', '\n'] <:+: (strL "    I am writing to express my enthusiastic interest in the **" ++ jt ++ strL "** position at **" ++ c ++ strL "**. Having closely followed " ++ c ++ strL "'s innovative work in [Relevant Industry], I am highly motivated by the opportunity to contribute my proven track record in " ++ joinComma (sk.take 2) ++ strL ", which align directly with the core demands of this role. My experience is centered on driving tangible results and leveraging technical expertise to achieve business objectives.") := by
    have m2v0 : ¬ ['\n', '\n'] <:+: (strL "    I am writing to express my enthusiastic interest in the **") := by decide
    have m2v1 : ¬ ['\n', '\n'] <:+: (strL "    I am writing to express my enthusiastic interest in the **" ++ jt) := noInfix2_append m2v0 hjt (Or.inr (by decide))
    have m2v2 : ¬ ['\n', '\n'] <:+: (strL "    I am writing to express my enthusiastic interest in the **" ++ jt ++ strL "** position at **") := noInfix2_append m2v1 (by decide) (Or.inl (by decide))
    have m2vg2 : (strL "    I am writing to express my enthusiastic interest in the **" ++ jt ++ strL "** position at **").getLast? = some ('*') := getLast?_append_some _ (by decide)
    have m2v3 : ¬ ['\n', '\n'] <:+: (strL "    I am writing to express my enthusiastic interest in the **" ++ jt ++ strL "** position at **" ++ c) := noInfix2_append m2v2 hc (Or.inr (by rw [m2vg2]; decide))
    have m2v4 : ¬ ['\n', '\n'] <:+: (strL "    I am writing to express my enthusiastic interest in the **" ++ jt ++ strL "** position at **" ++ c ++ strL "**. Having closely followed ") := noInfix2_append m2v3 (by decide) (Or.inl (by decide))
    have m2vg4 : (strL "    I am writing to express my enthusiastic interest in the **" ++ jt ++ strL "** position at **" ++ c ++ strL "**. Having closely followed ").getLast? = some (' ') := getLast?_append_some _ (by decide)
    have m2v5 : ¬ ['\n', '\n'] <:+: (strL "    I am writing to express my enthusiastic interest in the **" ++ jt ++ strL "** position at **" ++ c ++ strL "**. Having closely followed " ++ c) := noInfix2_append m2v4 hc (Or.inr (by rw [m2vg4]; decide))
    have m2v6 : ¬ ['\n', '\n'] <:+: (strL "    I am writing to express my enthusiastic interest in the **" ++ jt ++ strL "** position at **" ++ c ++ strL "**. Having closely followed " ++ c ++ strL "'s innovative work in [Relevant Industry], I am highly motivated by the opportunity to contribute my proven track record in ") := noInfix2_append m2v5 (by decide) (Or.inl (by decide))
    have m2vg6 : (strL "    I am writing to express my enthusiastic interest in the **" ++ jt ++ strL "** position at **" ++ c ++ strL "**. Having closely followed " ++ c ++ strL "'s innovative work in [Relevant Industry], I am highly motivated by the opportunity to contribute my proven track record in ").getLast? = some (' ') := getLast?_append_some _ (by decide)
    have m2v7 : ¬ ['\n', '\n'] <:+: (strL "    I am writing to express my enthusiastic interest in the **" ++ jt ++ strL "** position at **" ++ c ++ strL "**. Having closely followed " ++ c ++ strL "'s innovative work in [Relevant Industry], I am highly motivated by the opportunity to contribute my proven track record in " ++ joinComma (sk.take 2)) := noInfix2_append m2v6 hj2 (Or.inr (by rw [m2vg6]; decide))
    have m2v8 : ¬ ['\n', '\n'] <:+: (strL "    I am writing to express my enthusiastic interest in the **" ++ jt ++ strL "** position at **" ++ c ++ strL "**. Having closely followed " ++ c ++ strL "'s innovative work in [Relevant Industry], I am highly motivated by the opportunity to contribute my proven track record in " ++ joinComma (sk.take 2) ++ strL ", which align directly with the core demands of this role. My experience is centered on driving tangible results and leveraging technical expertise to achieve business objectives.") := noInfix2_append m2v7 (by decide) (Or.inl (by decide))
    exact m2v8
  have hn3 : ¬ ['\n', '\n'] <:+: (strL "    Throughout my career, I have consistently exceeded performance goals by focusing on measurable impact. For instance, in a previous role, I successfully [elaborate on a key achievement from the Experience Summary] resulting in a **[use a number/percentage, e.g., 25%] increase in [metric, e.g., operational efficiency]** and **[use another measurable outcome, e.g., $50,000] in cost savings** over a fiscal year. I am confident in my ability to bring the same level of **" ++ tn ++ strL "** drive and commitment to excellence to your team, immediately addressing the need for a professional skilled in [another highlighted skill].") := by
    have m3v0 : ¬ ['\n', '\n'] <:+: (strL "    Throughout my career, I have consistently exceeded performance goals by focusing on measurable impact. For instance, in a previous role, I successfully [elaborate on a key achievement from the Experience Summary] resulting in a **[use a number/percentage, e.g., 25%] increase in [metric, e.g., operational efficiency]** and **[use another measurable outcome, e.g., $50,000] in cost savings** over a fiscal year. I am confident in my ability to bring the same level of **") := by decide
    have m3v1 : ¬ ['\n', '\n'] <:+: (strL "    Throughout my career, I have consistently exceeded performance goals by focusing on measurable impact. For instance, in a previous role, I successfully [elaborate on a key achievement from the Experience Summary] resulting in a **[use a number/percentage, e.g., 25%] increase in [metric, e.g., operational efficiency]** and **[use another measurable outcome, e.g., $50,000] in cost savings** over a fiscal year. I am confident in my ability to bring the same level of **" ++ tn) := noInfix2_append m3v0 htn (Or.inr (by decide))
    have m3v2 : ¬ ['\n', '\n'] <:+: (strL "    Throughout my career, I have consistently exceeded performance goals by focusing on measurable impact. For instance, in a previous role, I successfully [elaborate on a key achievement from the Experience Summary] resulting in a **[use a number/percentage, e.g., 25%] increase in [metric, e.g., operational efficiency]** and **[use another measurable outcome, e.g., $50,000] in cost savings** over a fiscal year. I am confident in my ability to bring the same level of **" ++ tn ++ strL "** drive and commitment to excellence to your team, immediately addressing the need for a professional skilled in [another highlighted skill].") := noInfix2_append m3v1 (by decide) (Or.inl (by decide))
    exact m3v2
  have hn4 : ¬ ['\n', '\n'] <:+: (strL "    # FIX 2: Joining the full list of skills back into a comma-separated string for display\n    My specific technical abilities, including **" ++ joinComma sk ++ strL "**, are perfectly suited to the challenges outlined in the job description, especially in the areas of [mention a specific challenge or requirement]. I excel at translating complex technical requirements into actionable plans and thrive in fast-paced environments where **" ++ tn ++ strL "** problem-solving is critical. This blend of hands-on skill and strategic thinking positions me as an ideal candidate.") := by
    have m4v0 : ¬ ['\n', '\n'] <:+: (strL "    # FIX 2: Joining the full list of skills back into a comma-separated string for display\n    My specific technical abilities, including **") := by decide
    have m4v1 : ¬ ['\n', '\n'] <:+: (strL "    # FIX 2: Joining the full list of skills back into a comma-separated string for display\n    My specific technical abilities, including **" ++ joinComma sk) := noInfix2_append m4v0 hj (Or.inr (by decide))
    have m4v2 : ¬ ['\n', '\n'] <:+: (strL "    # FIX 2: Joining the full list of skills back into a comma-separated string for display\n    My specific technical abilities, including **" ++ joinComma sk ++ strL "**, are perfectly suited to the challenges outlined in the job description, especially in the areas of [mention a specific challenge or requirement]. I excel at translating complex technical requirements into actionable plans and thrive in fast-paced environments where **") := noInfix2_append m4v1 (by decide) (Or.inl (by decide))
    have m4vg2 : (strL "    # FIX 2: Joining the full list of skills back into a comma-separated string for display\n    My specific technical abilities, including **" ++ joinComma sk ++ strL "**, are perfectly suited to the challenges outlined in the job description, especially in the areas of [mention a specific challenge or requirement]. I excel at translating complex technical requirements into actionable plans and thrive in fast-paced environments where **").getLast? = some ('*') := getLast?_append_some _ (by decide)
    have m4v3 : ¬ ['\n', '\n'] <:+: (strL "    # FIX 2: Joining the full list of skills back into a comma-separated string for display\n    My specific technical abilities, including **" ++ joinComma sk ++ strL "**, are perfectly suited to the challenges outlined in the job description, especially in the areas of [mention a specific challenge or requirement]. I excel at translating complex technical requirements into actionable plans and thrive in fast-paced environments where **" ++ tn) := noInfix2_append m4v2 htn (Or.inr (by rw [m4vg2]; decide))
    have m4v4 : ¬ ['\n', '\n'] <:+: (strL "    # FIX 2: Joining the full list of skills back into a comma-separated string for display\n    My specific technical abilities, including **" ++ joinComma sk ++ strL "**, are perfectly suited to the challenges outlined in the job description, especially in the areas of [mention a specific challenge or requirement]. I excel at translating complex technical requirements into actionable plans and thrive in fast-paced environments where **" ++ tn ++ strL "** problem-solving is critical. This blend of hands-on skill and strategic thinking positions me as an ideal candidate.") := noInfix2_append m4v3 (by decide) (Or.inl (by decide))
    exact m4v4
  have hn5 : ¬ ['\n', '\n'] <:+: (strL "    I am eager for the opportunity to discuss how my background can directly benefit " ++ c ++ strL ". Thank you for your time and consideration.") := by
    have m5v0 : ¬ ['\n', '\n'] <:+: (strL "    I am eager for the opportunity to discuss how my background can directly benefit ") := by decide
    have m5v1 : ¬ ['\n', '\n'] <:+: (strL "    I am eager for the opportunity to discuss how my background can directly benefit " ++ c) := noInfix2_append m5v0 hc (Or.inr (by decide))
    have m5v2 : ¬ ['\n', '\n'] <:+: (strL "    I am eager for the opportunity to discuss how my background can directly benefit " ++ c ++ strL ". Thank you for your time and consideration.") := noInfix2_append m5v1 (by decide) (Or.inl (by decide))
    exact m5v2
  have hg2 : (strL "    I am writing to express my enthusiastic interest in the **" ++ jt ++ strL "** position at **" ++ c ++ strL "**. Having closely followed " ++ c ++ strL "'s innovative work in [Relevant Industry], I am highly motivated by the opportunity to contribute my proven track record in " ++ joinComma (sk.take 2) ++ strL ", which align directly with the core demands of this role. My experience is centered on driving tangible results and leveraging technical expertise to achieve business objectives.").getLast? = some '.' := getLast?_append_some _ (by decide)
  have hg3 : (strL "    Throughout my career, I have consistently exceeded performance goals by focusing on measurable impact. For instance, in a previous role, I successfully [elaborate on a key achievement from the Experience Summary] resulting in a **[use a number/percentage, e.g., 25%] increase in [metric, e.g., operational efficiency]** and **[use another measurable outcome, e.g., $50,000] in cost savings** over a fiscal year. I am confident in my ability to bring the same level of **" ++ tn ++ strL "** drive and commitment to excellence to your team, immediately addressing the need for a professional skilled in [another highlighted skill].").getLast? = some '.' := getLast?_append_some _ (by decide)
  have hg4 : (strL "    # FIX 2: Joining the full list of skills back into a comma-separated string for display\n    My specific technical abilities, including **" ++ joinComma sk ++ strL "**, are perfectly suited to the challenges outlined in the job description, especially in the areas of [mention a specific challenge or requirement]. I excel at translating complex technical requirements into actionable plans and thrive in fast-paced environments where **" ++ tn ++ strL "** problem-solving is critical. This blend of hands-on skill and strategic thinking positions me as an ideal candidate.").getLast? = some '.' := getLast?_append_some _ (by decide)
  have hg5 : (strL "    I am eager for the opportunity to discuss how my background can directly benefit " ++ c ++ strL ". Thank you for your time and consideration.").getLast? = some '.' := getLast?_append_some _ (by decide)
  rw [hfull]
  rw [splitOn2_append _ _ _ _ (by decide)]
  rw [splitOn2_append _ _ _ _ (by decide)]
  rw [splitOn2_append _ _ _ _ (noInfix2_snoc hn2 (by rw [hg2]; decide))]
  rw [splitOn2_append _ _ _ _ (noInfix2_snoc hn3 (by rw [hg3]; decide))]
  rw [splitOn2_append _ _ _ _ (noInfix2_snoc hn4 (by rw [hg4]; decide))]
  rw [splitOn2_append _ _ _ _ (noInfix2_snoc hn5 (by rw [hg5]; decide))]
  rw [splitOn2_append _ _ _ _ (by decide)]
  rw [splitOn2_eq_single _ _ _ (by decide)]

/-- C3 counterexample: at a simple valid input the composer's output
translates to one Header block followed by seven Body blocks, not 3-4. -/
theorem c3_counterexample :
    ((translate (generate_cover_letter (strL "T") (strL "C") [strL "S"]
        (strL "E") (strL "N") [])).filter
      (fun b => b.role == Role.Body)).length = 7 ∧
    ¬ (3 ≤ ((translate (generate_cover_letter (strL "T") (strL "C") [strL "S"]
        (strL "E") (strL "N") [])).filter
      (fun b => b.role == Role.Body)).length ∧
      ((translate (generate_cover_letter (strL "T") (strL "C") [strL "S"]
        (strL "E") (strL "N") [])).filter
      (fun b => b.role == Role.Body)).length ≤ 4) :=
  ⟨by decide, by decide⟩

/-- C3 amended: for every valid composer input (non-empty job title,
company, experience, tone, at least one skill) in which no field and no
skill contains a blank line, the composer's output translates to exactly
one Header block followed by exactly seven Body blocks (salutation,
four paragraphs - one of which carries the stray `# FIX 2` comment line -
closing, and signature placeholder), not 3-4. -/
theorem c3_round_trip_blocks (jt c tn exp jd : List Char) (sk : List (List Char))
    (hjt0 : jt ≠ []) (hc0 : c ≠ []) (htn0 : tn ≠ []) (hexp0 : exp ≠ [])
    (hsk0 : sk ≠ [])
    (hjt : ¬ ['\n', '\n'] <:+: jt) (hc : ¬ ['\n', '\n'] <:+: c) (htn : ¬ ['\n', '\n'] <:+: tn)
    (hsk : ∀ s ∈ sk, ¬ ['\n', '\n'] <:+: s) :
    (translate (generate_cover_letter jt c sk exp tn jd)).map StyledBlock.role
      = Role.Header :: List.replicate 7 Role.Body := by
  have hsp := composer_split jt c tn sk hjt hc htn hsk exp jd
  have hs0 : pyStrip (strL "**[Your Name]**\n[Your Phone Number] | [Your Email Address]\n[Your LinkedIn/Portfolio URL]") ≠ [] := by decide
  have hs1 : pyStrip (strL "Dear Hiring Team,") ≠ [] := by decide
  have hs6 : pyStrip (strL "    Sincerely,") ≠ [] := by decide
  have hs7 : pyStrip (strL "    [Your Name]") ≠ [] := by decide
  have hs2 : pyStrip (strL "    I am writing to express my enthusiastic interest in the **" ++ jt ++ strL "** position at **" ++ c ++ strL "**. Having closely followed " ++ c ++ strL "'s innovative work in [Relevant Industry], I am highly motivated by the opportunity to contribute my proven track record in " ++ joinComma (sk.take 2) ++ strL ", which align directly with the core demands of this role. My experience is centered on driving tangible results and leveraging technical expertise to achieve business objectives.") ≠ [] :=
    pyStrip_ne_nil_of_mem '.' (List.mem_append_right _ (by decide)) (by decide)
  have hs3 : pyStrip (strL "    Throughout my career, I have consistently exceeded performance goals by focusing on measurable impact. For instance, in a previous role, I successfully [elaborate on a key achievement from the Experience Summary] resulting in a **[use a number/percentage, e.g., 25%] increase in [metric, e.g., operational efficiency]** and **[use another measurable outcome, e.g., $50,000] in cost savings** over a fiscal year. I am confident in my ability to bring the same level of **" ++ tn ++ strL "** drive and commitment to excellence to your team, immediately addressing the need for a professional skilled in [another highlighted skill].") ≠ [] :=
    pyStrip_ne_nil_of_mem '.' (List.mem_append_right _ (by decide)) (by decide)
  have hs4 : pyStrip (strL "    # FIX 2: Joining the full list of skills back into a comma-separated string for display\n    My specific technical abilities, including **" ++ joinComma sk ++ strL "**, are perfectly suited to the challenges outlined in the job description, especially in the areas of [mention a specific challenge or requirement]. I excel at translating complex technical requirements into actionable plans and thrive in fast-paced environments where **" ++ tn ++ strL "** problem-solving is critical. This blend of hands-on skill and strategic thinking positions me as an ideal candidate.") ≠ [] :=
    pyStrip_ne_nil_of_mem '.' (List.mem_append_right _ (by decide)) (by decide)
  have hs5 : pyStrip (strL "    I am eager for the opportunity to discuss how my background can directly benefit " ++ c ++ strL ". Thank you for your time and consideration.") ≠ [] :=
    pyStrip_ne_nil_of_mem '.' (List.mem_append_right _ (by decide)) (by decide)
  have hne1 : (strL "Dear Hiring Team," : List Char) ≠ strL "**[Your Name]**\n[Your Phone Number] | [Your Email Address]\n[Your LinkedIn/Portfolio URL]" := by decide
  have hne6 : (strL "    Sincerely," : List Char) ≠ strL "**[Your Name]**\n[Your Phone Number] | [Your Email Address]\n[Your LinkedIn/Portfolio URL]" := by decide
  have hne7 : (strL "    [Your Name]" : List Char) ≠ strL "**[Your Name]**\n[Your Phone Number] | [Your Email Address]\n[Your LinkedIn/Portfolio URL]" := by decide
  have hh2 : (strL "    I am writing to express my enthusiastic interest in the **" ++ jt ++ strL "** position at **" ++ c ++ strL "**. Having closely followed " ++ c ++ strL "'s innovative work in [Relevant Industry], I am highly motivated by the opportunity to contribute my proven track record in " ++ joinComma (sk.take 2) ++ strL ", which align directly with the core demands of this role. My experience is centered on driving tangible results and leveraging technical expertise to achieve business objectives.").head? = some ' ' := head?_append_some _ (head?_append_some _ (head?_append_some _ (head?_append_some _ (head?_append_some _ (head?_append_some _ (head?_append_some _ (head?_append_some _ ((by decide)))))))))
  have hh3 : (strL "    Throughout my career, I have consistently exceeded performance goals by focusing on measurable impact. For instance, in a previous role, I successfully [elaborate on a key achievement from the Experience Summary] resulting in a **[use a number/percentage, e.g., 25%] increase in [metric, e.g., operational efficiency]** and **[use another measurable outcome, e.g., $50,000] in cost savings** over a fiscal year. I am confident in my ability to bring the same level of **" ++ tn ++ strL "** drive and commitment to excellence to your team, immediately addressing the need for a professional skilled in [another highlighted skill].").head? = some ' ' := head?_append_some _ (head?_append_some _ ((by decide)))
  have hh4 : (strL "    # FIX 2: Joining the full list of skills back into a comma-separated string for display\n    My specific technical abilities, including **" ++ joinComma sk ++ strL "**, are perfectly suited to the challenges outlined in the job description, especially in the areas of [mention a specific challenge or requirement]. I excel at translating complex technical requirements into actionable plans and thrive in fast-paced environments where **" ++ tn ++ strL "** problem-solving is critical. This blend of hands-on skill and strategic thinking positions me as an ideal candidate.").head? = some ' ' := head?_append_some _ (head?_append_some _ (head?_append_some _ (head?_append_some _ ((by decide)))))
  have hh5 : (strL "    I am eager for the opportunity to discuss how my background can directly benefit " ++ c ++ strL ". Thank you for your time and consideration.").head? = some ' ' := head?_append_some _ (head?_append_some _ ((by decide)))
  have hne2 : (strL "    I am writing to express my enthusiastic interest in the **" ++ jt ++ strL "** position at **" ++ c ++ strL "**. Having closely followed " ++ c ++ strL "'s innovative work in [Relevant Industry], I am highly motivated by the opportunity to contribute my proven track record in " ++ joinComma (sk.take 2) ++ strL ", which align directly with the core demands of this role. My experience is centered on driving tangible results and leveraging technical expertise to achieve business objectives.") ≠ strL "**[Your Name]**\n[Your Phone Number] | [Your Email Address]\n[Your LinkedIn/Portfolio URL]" := by
    intro e
    rw [e] at hh2
    revert hh2
    decide
  have hne3 : (strL "    Throughout my career, I have consistently exceeded performance goals by focusing on measurable impact. For instance, in a previous role, I successfully [elaborate on a key achievement from the Experience Summary] resulting in a **[use a number/percentage, e.g., 25%] increase in [metric, e.g., operational efficiency]** and **[use another measurable outcome, e.g., $50,000] in cost savings** over a fiscal year. I am confident in my ability to bring the same level of **" ++ tn ++ strL "** drive and commitment to excellence to your team, immediately addressing the need for a professional skilled in [another highlighted skill].") ≠ strL "**[Your Name]**\n[Your Phone Number] | [Your Email Address]\n[Your LinkedIn/Portfolio URL]" := by
    intro e
    rw [e] at hh3
    revert hh3
    decide
  have hne4 : (strL "    # FIX 2: Joining the full list of skills back into a comma-separated string for display\n    My specific technical abilities, including **" ++ joinComma sk ++ strL "**, are perfectly suited to the challenges outlined in the job description, especially in the areas of [mention a specific challenge or requirement]. I excel at translating complex technical requirements into actionable plans and thrive in fast-paced environments where **" ++ tn ++ strL "** problem-solving is critical. This blend of hands-on skill and strategic thinking positions me as an ideal candidate.") ≠ strL "**[Your Name]**\n[Your Phone Number] | [Your Email Address]\n[Your LinkedIn/Portfolio URL]" := by
    intro e
    rw [e] at hh4
    revert hh4
    decide
  have hne5 : (strL "    I am eager for the opportunity to discuss how my background can directly benefit " ++ c ++ strL ". Thank you for your time and consideration.") ≠ strL "**[Your Name]**\n[Your Phone Number] | [Your Email Address]\n[Your LinkedIn/Portfolio URL]" := by
    intro e
    rw [e] at hh5
    revert hh5
    decide
  simp only [translate, hsp, List.headD_cons, List.filterMap_cons, hs0, hs1, hs2, hs3,
    hs4, hs5, hs6, hs7, hne1, hne2, hne3, hne4, hne5, hne6, hne7, ne_eq,
    not_false_eq_true, not_true_eq_false, if_true, if_false,
    List.filterMap_nil, List.map_cons, List.map_nil]
  simp [List.replicate_succ]

/-- Witness for C3 at a concrete one-skill input. -/
theorem c3_round_trip_blocks_witness :
    ((strL "T" : List Char) ≠ [] ∧ (strL "C" : List Char) ≠ [] ∧
     (strL "N" : List Char) ≠ [] ∧ (strL "E" : List Char) ≠ [] ∧
     ([strL "S"] : List (List Char)) ≠ [] ∧
     ¬ ['\n', '\n'] <:+: (strL "T" : List Char) ∧ ¬ ['\n', '\n'] <:+: (strL "C" : List Char) ∧
     ¬ ['\n', '\n'] <:+: (strL "N" : List Char) ∧
     (∀ s ∈ ([strL "S"] : List (List Char)), ¬ ['\n', '\n'] <:+: s)) ∧
    (translate (generate_cover_letter (strL "T") (strL "C") [strL "S"]
        (strL "E") (strL "N") [])).map StyledBlock.role
      = Role.Header :: List.replicate 7 Role.Body :=
  ⟨⟨by decide, by decide, by decide, by decide, by decide,
    by decide, by decide, by decide, by decide⟩,
   c3_round_trip_blocks (strL "T") (strL "C") (strL "N") (strL "E") []
     [strL "S"] (by decide) (by decide) (by decide) (by decide) (by decide)
     (by decide) (by decide) (by decide) (by decide)⟩

/-! ### C7: no doubled bold markers.

The markup a block produces is the flattening of a sequence of tokens:
whole `<b>`, `</b>`, `<br/>` tags and single non-tag characters.  Over
such token sequences "no doubled markers" is an adjacency property, which
the emphasis loop guarantees. -/

theorem flatToks_append (a b : List Tok) :
    flatToks (a ++ b) = flatToks a ++ flatToks b := by
  simp [flatToks]

theorem flatToks_cons (t : Tok) (ts : List Tok) :
    flatToks (t :: ts) = Tok.chars t ++ flatToks ts := by
  simp [flatToks]

theorem flatToks_eq_nil {ts : List Tok} (h : flatToks ts = []) : ts = [] := by
  cases ts with
  | nil => rfl
  | cons t ts =>
    rw [flatToks_cons] at h
    rcases List.append_eq_nil.mp h with ⟨h1, -⟩
    cases t <;> simp [Tok.chars] at h1

theorem replaceNl_flatToks (p : List Char) : replaceNl p = flatToks (nlToks p) := by
  induction p with
  | nil => rfl
  | cons c rest ih =>
    rw [show nlToks (c :: rest)
        = (if c = '\n' then Tok.lineBr else Tok.ch c) :: nlToks rest from rfl,
      flatToks_cons]
    by_cases hc : c = '\n'
    · subst hc
      rw [replaceNl, if_pos rfl, if_pos rfl, ih]
      rfl
    · rw [replaceNl, if_neg hc, if_neg hc, ih]
      rfl

theorem consChunk_eq_prepend (c : Char) (l : List (List Char)) :
    consChunk c l = prependChunk [c] l := by
  cases l <;> rfl

theorem prependChunk_prepend (xs ys : List Char) (l : List (List Char)) :
    prependChunk xs (prependChunk ys l) = prependChunk (xs ++ ys) l := by
  cases l <;> simp [prependChunk]

theorem consTok_map_flat (t : Tok) (l : List (List Tok)) :
    (consTok t l).map flatToks = prependChunk (Tok.chars t) (l.map flatToks) := by
  cases l <;> simp [consTok, prependChunk, flatToks]

theorem splitOn2_flatToks : ∀ ts : List Tok,
    (∀ t ∈ ts, t ≠ Tok.tagOpen ∧ t ≠ Tok.tagClose) →
    splitOn2 '*' '*' (flatToks ts) = (splitToks ts).map flatToks := by
  intro ts
  induction ts using splitToks.induct with
  | case1 c d rest hcd ih =>
    intro htf
    have htf' : ∀ t ∈ rest, t ≠ Tok.tagOpen ∧ t ≠ Tok.tagClose :=
      fun t ht => htf t (by simp [ht])
    obtain ⟨rfl, rfl⟩ := hcd
    rw [show flatToks (Tok.ch '*' :: Tok.ch '*' :: rest)
        = '*' :: '*' :: flatToks rest from rfl]
    rw [splitOn2, if_pos ⟨rfl, rfl⟩, ih htf']
    rw [show splitToks (Tok.ch '*' :: Tok.ch '*' :: rest) = [] :: splitToks rest from by
      simp [splitToks]]
    rfl
  | case2 c d rest hcd ih =>
    intro htf
    have htf' : ∀ t ∈ Tok.ch d :: rest, t ≠ Tok.tagOpen ∧ t ≠ Tok.tagClose :=
      fun t ht => htf t (List.mem_cons_of_mem _ ht)
    rw [show flatToks (Tok.ch c :: Tok.ch d :: rest)
        = c :: flatToks (Tok.ch d :: rest) from rfl]
    rw [splitOn2_cons_of_ne '*' '*' c _ (fun d' r' hdr => by
      rw [show flatToks (Tok.ch d :: rest) = d :: flatToks rest from rfl] at hdr
      obtain ⟨rfl, -⟩ := List.cons.inj hdr
      exact hcd)]
    rw [ih htf', consChunk_eq_prepend]
    rw [show splitToks (Tok.ch c :: Tok.ch d :: rest)
        = consTok (Tok.ch c) (splitToks (Tok.ch d :: rest)) from by simp [splitToks, hcd]]
    rw [consTok_map_flat]
    rfl
  | case3 t rest hne ih =>
    intro htf
    have htf' : ∀ u ∈ rest, u ≠ Tok.tagOpen ∧ u ≠ Tok.tagClose :=
      fun u hu => htf u (List.mem_cons_of_mem _ hu)
    cases t with
    | tagOpen => exact absurd rfl (htf Tok.tagOpen (List.mem_cons_self ..)).1
    | tagClose => exact absurd rfl (htf Tok.tagClose (List.mem_cons_self ..)).2
    | lineBr =>
      rw [show flatToks (Tok.lineBr :: rest)
          = '<' :: 'b' :: 'r' :: '/' :: '>' :: flatToks rest from rfl]
      rw [splitOn2_cons_of_ne '*' '*' '<' _
        (fun d r _ hc => absurd hc.1 (by decide))]
      rw [splitOn2_cons_of_ne '*' '*' 'b' _
        (fun d r _ hc => absurd hc.1 (by decide))]
      rw [splitOn2_cons_of_ne '*' '*' 'r' _
        (fun d r _ hc => absurd hc.1 (by decide))]
      rw [splitOn2_cons_of_ne '*' '*' '/' _
        (fun d r _ hc => absurd hc.1 (by decide))]
      rw [splitOn2_cons_of_ne '*' '*' '>' _
        (fun d r _ hc => absurd hc.1 (by decide))]
      rw [ih htf']
      rw [show splitToks (Tok.lineBr :: rest) = consTok Tok.lineBr (splitToks rest)
        from rfl]
      rw [consTok_map_flat]
      simp [consChunk_eq_prepend, prependChunk_prepend, Tok.chars]
    | ch c =>
      cases rest with
      | nil => rfl
      | cons u rest' =>
        have hu : ∀ d, u ≠ Tok.ch d := fun d hd => hne c d rest' rfl (by rw [hd])
        rw [show flatToks (Tok.ch c :: u :: rest')
            = c :: flatToks (u :: rest') from rfl]
        rw [splitOn2_cons_of_ne '*' '*' c _ (fun d r hdr hc0 => by
          cases u with
          | ch e => exact hu e rfl
          | tagOpen =>
            rw [show flatToks (Tok.tagOpen :: rest')
                = '<' :: 'b' :: '>' :: flatToks rest' from rfl] at hdr
            obtain ⟨h1, -⟩ := List.cons.inj hdr
            exact absurd (h1.trans hc0.2) (by decide)
          | tagClose =>
            rw [show flatToks (Tok.tagClose :: rest')
                = '<' :: '/' :: 'b' :: '>' :: flatToks rest' from rfl] at hdr
            obtain ⟨h1, -⟩ := List.cons.inj hdr
            exact absurd (h1.trans hc0.2) (by decide)
          | lineBr =>
            rw [show flatToks (Tok.lineBr :: rest')
                = '<' :: 'b' :: 'r' :: '/' :: '>' :: flatToks rest' from rfl] at hdr
            obtain ⟨h1, -⟩ := List.cons.inj hdr
            exact absurd (h1.trans hc0.2) (by decide))]
        rw [ih htf', consChunk_eq_prepend]
        rw [show splitToks (Tok.ch c :: u :: rest')
            = consTok (Tok.ch c) (splitToks (u :: rest')) from by
          cases u with
          | ch e => exact absurd rfl (hu e)
          | tagOpen => rfl
          | tagClose => rfl
          | lineBr => rfl]
        rw [consTok_map_flat]
        rfl
  | case4 =>
    intro htf
    rfl

theorem boldJoin_flatToks : ∀ (css : List (List Tok)) (b : Bool),
    boldJoin (css.map flatToks) b = flatToks (boldToks css b) := by
  intro css
  induction css with
  | nil => intro b; cases b <;> rfl
  | cons c cs ih =>
    intro b
    cases b with
    | false =>
      rw [List.map_cons, boldJoin, ih true, boldToks, flatToks_append]
    | true =>
      rw [List.map_cons, boldJoin, ih false, boldToks, flatToks_cons,
        flatToks_append, flatToks_cons]
      simp [Tok.chars, List.append_assoc]

theorem okPair_of_left {a : Tok} (ha : ¬ Tok.isTag a) (b : Tok) : okPair a b :=
  ⟨fun h => ha (Or.inl h.1), fun h => ha (Or.inr h.1)⟩

theorem okPair_open_of_ne {b : Tok} (h : b ≠ Tok.tagOpen) : okPair Tok.tagOpen b := by
  constructor
  · rintro ⟨-, h2⟩
    exact h h2
  · rintro ⟨h1, -⟩
    cases h1

theorem okPair_close_of_ne {b : Tok} (h : b ≠ Tok.tagClose) : okPair Tok.tagClose b := by
  constructor
  · rintro ⟨h1, -⟩
    cases h1
  · rintro ⟨-, h2⟩
    exact h h2

theorem chain'_of_untagged (l : List Tok) (h : ∀ t ∈ l, ¬ Tok.isTag t) :
    List.Chain' okPair l := by
  induction l with
  | nil => exact List.chain'_nil
  | cons a l ih =>
    rw [List.chain'_cons']
    exact ⟨fun b _ => okPair_of_left (h a (List.mem_cons_self ..)) b,
      ih fun t ht => h t (List.mem_cons_of_mem _ ht)⟩

theorem mem_consTok {t : Tok} {L : List (List Tok)} {l : List Tok}
    (hl : l ∈ consTok t L) {e : Tok} (he : e ∈ l) :
    e = t ∨ ∃ l' ∈ L, e ∈ l' := by
  cases L with
  | nil =>
    simp [consTok] at hl
    subst hl
    simp at he
    exact Or.inl he
  | cons h r =>
    simp [consTok] at hl
    rcases hl with hl | hl
    · subst hl
      rcases List.mem_cons.mp he with he | he
      · exact Or.inl he
      · exact Or.inr ⟨h, by simp, he⟩
    · exact Or.inr ⟨l, by simp [hl], he⟩

theorem mem_splitToks : ∀ (ts : List Tok), ∀ l ∈ splitToks ts, ∀ e ∈ l, e ∈ ts := by
  intro ts
  induction ts using splitToks.induct with
  | case1 c d rest hcd ih =>
    intro l hl e he
    rw [show splitToks (Tok.ch c :: Tok.ch d :: rest)
        = [] :: splitToks rest from by simp [splitToks, hcd]] at hl
    rcases List.mem_cons.mp hl with hl | hl
    · subst hl; cases he
    · exact List.mem_cons_of_mem _ (List.mem_cons_of_mem _ (ih l hl e he))
  | case2 c d rest hcd ih =>
    intro l hl e he
    rw [show splitToks (Tok.ch c :: Tok.ch d :: rest)
        = consTok (Tok.ch c) (splitToks (Tok.ch d :: rest)) from by
      simp [splitToks, hcd]] at hl
    rcases mem_consTok hl he with rfl | ⟨l', hl', he'⟩
    · exact List.mem_cons_self ..
    · exact List.mem_cons_of_mem _ (ih l' hl' e he')
  | case3 t rest hne ih =>
    intro l hl e he
    have heq : splitToks (t :: rest) = consTok t (splitToks rest) := by
      cases t with
      | ch c =>
        cases rest with
        | nil => rfl
        | cons u rest' =>
          cases u with
          | ch d => exact (hne c d rest' rfl rfl).elim
          | tagOpen => rfl
          | tagClose => rfl
          | lineBr => rfl
      | tagOpen => rfl
      | tagClose => rfl
      | lineBr => rfl
    rw [heq] at hl
    rcases mem_consTok hl he with rfl | ⟨l', hl', he'⟩
    · exact List.mem_cons_self ..
    · exact List.mem_cons_of_mem _ (ih l' hl' e he')
  | case4 =>
    intro l hl e he
    simp [splitToks] at hl
    subst hl
    cases he

theorem mem_boldToks : ∀ (css : List (List Tok)) (b : Bool) (t : Tok),
    t ∈ boldToks css b →
    t = Tok.tagOpen ∨ t = Tok.tagClose ∨ ∃ c ∈ css, t ∈ c := by
  intro css
  induction css with
  | nil => intro b t ht; cases b <;> cases ht
  | cons c cs ih =>
    intro b t ht
    cases b with
    | false =>
      rw [boldToks] at ht
      rcases List.mem_append.mp ht with ht | ht
      · exact Or.inr (Or.inr ⟨c, List.mem_cons_self .., ht⟩)
      · rcases ih true t ht with h | h | ⟨c', hc', ht'⟩
        · exact Or.inl h
        · exact Or.inr (Or.inl h)
        · exact Or.inr (Or.inr ⟨c', List.mem_cons_of_mem _ hc', ht'⟩)
    | true =>
      rw [boldToks] at ht
      rcases List.mem_cons.mp ht with rfl | ht
      · exact Or.inl rfl
      rcases List.mem_append.mp ht with ht | ht
      · exact Or.inr (Or.inr ⟨c, List.mem_cons_self .., ht⟩)
      rcases List.mem_cons.mp ht with rfl | ht
      · exact Or.inr (Or.inl rfl)
      rcases ih false t ht with h | h | ⟨c', hc', ht'⟩
      · exact Or.inl h
      · exact Or.inr (Or.inl h)
      · exact Or.inr (Or.inr ⟨c', List.mem_cons_of_mem _ hc', ht'⟩)

theorem head?_boldToks_ne_tagClose (css : List (List Tok)) (b : Bool)
    (htf : ∀ c ∈ css, ∀ t ∈ c, ¬ Tok.isTag t) :
    ∀ t, (boldToks css b).head? = some t → t ≠ Tok.tagClose := by
  intro t ht
  cases css with
  | nil => cases b <;> cases ht
  | cons c cs =>
    cases b with
    | true =>
      rw [boldToks, List.head?_cons] at ht
      obtain rfl := Option.some.inj ht
      intro h
      cases h
    | false =>
      rw [boldToks] at ht
      cases c with
      | cons t0 c' =>
        rw [List.cons_append, List.head?_cons] at ht
        obtain rfl := Option.some.inj ht
        intro h
        exact htf _ (List.mem_cons_self ..) t0 (List.mem_cons_self ..) (Or.inr h)
      | nil =>
        rw [List.nil_append] at ht
        cases cs with
        | nil => cases ht
        | cons c' cs' =>
          rw [boldToks, List.head?_cons] at ht
          obtain rfl := Option.some.inj ht
          intro h
          cases h

theorem chain'_boldToks : ∀ (css : List (List Tok)) (b : Bool),
    (∀ c ∈ css, ∀ t ∈ c, ¬ Tok.isTag t) →
    List.Chain' okPair (boldToks css b) := by
  intro css
  induction css with
  | nil => intro b htf; cases b <;> exact List.chain'_nil
  | cons c cs ih =>
    intro b htf
    have hc : ∀ t ∈ c, ¬ Tok.isTag t := htf c (List.mem_cons_self ..)
    have htf' : ∀ c' ∈ cs, ∀ t ∈ c', ¬ Tok.isTag t :=
      fun c' h => htf c' (List.mem_cons_of_mem _ h)
    cases b with
    | false =>
      rw [boldToks]
      rw [List.chain'_append]
      refine ⟨chain'_of_untagged c hc, ih true htf', ?_⟩
      intro x hx y hy
      exact okPair_of_left (hc x (List.mem_of_mem_getLast? hx)) y
    | true =>
      rw [boldToks, List.chain'_cons']
      constructor
      · intro y hy
        rcases hhead : (c ++ Tok.tagClose :: boldToks cs false).head? with _ | u
        · rw [hhead] at hy; cases hy
        · rw [hhead] at hy
          obtain rfl := Option.some.inj hy
          cases c with
          | nil =>
            rw [List.nil_append, List.head?_cons] at hhead
            obtain rfl := Option.some.inj hhead
            exact okPair_open_of_ne fun h => by cases h
          | cons t0 c' =>
            rw [List.cons_append, List.head?_cons] at hhead
            obtain rfl := Option.some.inj hhead
            exact okPair_open_of_ne fun h => hc t0 (List.mem_cons_self ..) (Or.inl h)
      · rw [List.chain'_append]
        refine ⟨chain'_of_untagged c hc, ?_, ?_⟩
        · rw [List.chain'_cons']
          refine ⟨?_, ih false htf'⟩
          intro y hy
          have hyn := head?_boldToks_ne_tagClose cs false htf' y hy
          exact okPair_close_of_ne hyn
        · intro x hx y hy
          exact okPair_of_left (hc x (List.mem_of_mem_getLast? hx)) y

theorem flat_split_at_lt : ∀ (ts : List Tok),
    (∀ c, Tok.ch c ∈ ts → c ≠ '<') →
    ∀ s t : List Char, flatToks ts = s ++ '<' :: t →
    ∃ ts₁ j ts₂, ts = ts₁ ++ j :: ts₂ ∧ flatToks ts₁ = s ∧
      Tok.chars j ++ flatToks ts₂ = '<' :: t ∧
      (j = Tok.tagOpen ∨ j = Tok.tagClose ∨ j = Tok.lineBr) := by
  intro ts
  induction ts with
  | nil =>
    intro hch s t heq
    exact absurd heq (by cases s <;> simp [flatToks])
  | cons i is ih =>
    intro hch s t heq
    have hch' : ∀ c, Tok.ch c ∈ is → c ≠ '<' :=
      fun c hc => hch c (List.mem_cons_of_mem _ hc)
    rw [flatToks_cons] at heq
    rcases List.append_eq_append_iff.mp heq with ⟨a, ha1, ha2⟩ | ⟨a, hb1, hb2⟩
    · obtain ⟨ts₁, j, ts₂, h1, h2, h3, h4⟩ := ih hch' a t ha2
      refine ⟨i :: ts₁, j, ts₂, by rw [h1]; rfl, ?_, h3, h4⟩
      rw [flatToks_cons, h2, ha1]
    · cases a with
      | nil =>
        rw [List.nil_append] at hb2
        obtain ⟨ts₁, j, ts₂, h1, h2, h3, h4⟩ := ih hch' [] t hb2.symm
        have hts1 : ts₁ = [] := flatToks_eq_nil h2
        subst hts1
        rw [List.nil_append] at h1
        rw [List.append_nil] at hb1
        refine ⟨[i], j, ts₂, by rw [h1]; rfl, ?_, h3, h4⟩
        rw [show flatToks [i] = Tok.chars i ++ flatToks [] from flatToks_cons i [],
          show flatToks ([] : List Tok) = [] from rfl, List.append_nil, hb1]
      | cons e a' =>
        rw [List.cons_append] at hb2
        obtain ⟨he, -⟩ := List.cons.inj hb2
        subst he
        cases i with
        | ch c =>
          have hc0 : c = '<' := by
            cases s with
            | nil => exact (by simpa [Tok.chars] using hb1 : c = '<' ∧ a' = []).1
            | cons x xs => simp [Tok.chars] at hb1
          exact absurd hc0 (hch c (List.mem_cons_self ..))
        | tagOpen =>
          rcases s with _ | ⟨x1, _ | ⟨x2, _ | ⟨x3, srest⟩⟩⟩
          · refine ⟨[], Tok.tagOpen, is, rfl, rfl, ?_, Or.inl rfl⟩
            simpa using heq
          · simp [Tok.chars] at hb1
          · simp [Tok.chars] at hb1
          · simp [Tok.chars] at hb1
        | tagClose =>
          rcases s with _ | ⟨x1, _ | ⟨x2, _ | ⟨x3, _ | ⟨x4, srest⟩⟩⟩⟩
          · refine ⟨[], Tok.tagClose, is, rfl, rfl, ?_, Or.inr (Or.inl rfl)⟩
            simpa using heq
          · simp [Tok.chars] at hb1
          · simp [Tok.chars] at hb1
          · simp [Tok.chars] at hb1
          · simp [Tok.chars] at hb1
        | lineBr =>
          rcases s with _ | ⟨x1, _ | ⟨x2, _ | ⟨x3, _ | ⟨x4, _ | ⟨x5, srest⟩⟩⟩⟩⟩
          · refine ⟨[], Tok.lineBr, is, rfl, rfl, ?_, Or.inr (Or.inr rfl)⟩
            simpa using heq
          · simp [Tok.chars] at hb1
          · simp [Tok.chars] at hb1
          · simp [Tok.chars] at hb1
          · simp [Tok.chars] at hb1
          · simp [Tok.chars] at hb1

theorem chain'_pair_middle {α : Type} {R : α → α → Prop} {a b : α} {l : List α}
    (h : List.Chain' R l) (hin : [a, b] <:+: l) : R a b := by
  obtain ⟨s, t, hst⟩ := hin
  rw [← hst] at h
  have h1 := (List.chain'_append.mp h).1
  have h2 := (List.chain'_append.mp h1).2.1
  exact (List.chain'_cons.mp h2).1

theorem flat_no_double_open (ts : List Tok)
    (hch : ∀ c, Tok.ch c ∈ ts → c ≠ '<') (hchain : List.Chain' okPair ts) :
    ∀ s t : List Char,
      flatToks ts ≠ s ++ '<' :: 'b' :: '>' :: '<' :: 'b' :: '>' :: t := by
  intro s t heq
  obtain ⟨ts₁, j, ts₂, hts, -, hj, hjcase⟩ := flat_split_at_lt ts hch s _ heq
  have hch₂ : ∀ c, Tok.ch c ∈ ts₂ → c ≠ '<' := fun c hc =>
    hch c (by rw [hts]; exact List.mem_append_right _ (List.mem_cons_of_mem _ hc))
  rcases hjcase with rfl | rfl | rfl
  · rw [show Tok.chars Tok.tagOpen = ['<', 'b', '>'] from rfl] at hj
    have hflat₂ : flatToks ts₂ = '<' :: 'b' :: '>' :: t := by
      simpa using hj
    obtain ⟨ts₁', j', ts₂', hts', hs', hj', hjcase'⟩ :=
      flat_split_at_lt ts₂ hch₂ [] _ (by simpa using hflat₂)
    have h0 : ts₁' = [] := flatToks_eq_nil hs'
    subst h0
    rw [List.nil_append] at hts'
    rcases hjcase' with rfl | rfl | rfl
    · have hin : [Tok.tagOpen, Tok.tagOpen] <:+: ts :=
        ⟨ts₁, ts₂', by rw [hts, hts']; simp⟩
      exact (chain'_pair_middle hchain hin).1 ⟨rfl, rfl⟩
    · rw [show Tok.chars Tok.tagClose = ['<', '/', 'b', '>'] from rfl] at hj'
      simp at hj'
    · rw [show Tok.chars Tok.lineBr = ['<', 'b', 'r', '/', '>'] from rfl] at hj'
      simp at hj'
  · rw [show Tok.chars Tok.tagClose = ['<', '/', 'b', '>'] from rfl] at hj
    simp at hj
  · rw [show Tok.chars Tok.lineBr = ['<', 'b', 'r', '/', '>'] from rfl] at hj
    simp at hj

theorem flat_no_double_close (ts : List Tok)
    (hch : ∀ c, Tok.ch c ∈ ts → c ≠ '<') (hchain : List.Chain' okPair ts) :
    ∀ s t : List Char,
      flatToks ts ≠ s ++ '<' :: '/' :: 'b' :: '>' :: '<' :: '/' :: 'b' :: '>' :: t := by
  intro s t heq
  obtain ⟨ts₁, j, ts₂, hts, -, hj, hjcase⟩ := flat_split_at_lt ts hch s _ heq
  have hch₂ : ∀ c, Tok.ch c ∈ ts₂ → c ≠ '<' := fun c hc =>
    hch c (by rw [hts]; exact List.mem_append_right _ (List.mem_cons_of_mem _ hc))
  rcases hjcase with rfl | rfl | rfl
  · rw [show Tok.chars Tok.tagOpen = ['<', 'b', '>'] from rfl] at hj
    simp at hj
  · rw [show Tok.chars Tok.tagClose = ['<', '/', 'b', '>'] from rfl] at hj
    have hflat₂ : flatToks ts₂ = '<' :: '/' :: 'b' :: '>' :: t := by
      simpa using hj
    obtain ⟨ts₁', j', ts₂', hts', hs', hj', hjcase'⟩ :=
      flat_split_at_lt ts₂ hch₂ [] _ (by simpa using hflat₂)
    have h0 : ts₁' = [] := flatToks_eq_nil hs'
    subst h0
    rw [List.nil_append] at hts'
    rcases hjcase' with rfl | rfl | rfl
    · rw [show Tok.chars Tok.tagOpen = ['<', 'b', '>'] from rfl] at hj'
      simp at hj'
    · have hin : [Tok.tagClose, Tok.tagClose] <:+: ts :=
        ⟨ts₁, ts₂', by rw [hts, hts']; simp⟩
      exact (chain'_pair_middle hchain hin).2 ⟨rfl, rfl⟩
    · rw [show Tok.chars Tok.lineBr = ['<', 'b', 'r', '/', '>'] from rfl] at hj'
      simp at hj'
  · rw [show Tok.chars Tok.lineBr = ['<', 'b', 'r', '/', '>'] from rfl] at hj
    simp at hj

theorem collapseBB_eq_self : ∀ l : List Char,
    (∀ s t, l ≠ s ++ '<' :: 'b' :: '>' :: '<' :: 'b' :: '>' :: t) →
    collapseBB l = l := by
  intro l
  induction l using collapseBB.induct with
  | case1 rest ih =>
    intro h
    exact absurd rfl (h [] rest)
  | case2 c rest hg ih =>
    intro h
    rw [collapseBB.eq_2 c rest hg, ih fun s t e => h (c :: s) t (by rw [e]; rfl)]
  | case3 =>
    intro h
    rfl

theorem collapseBBc_eq_self : ∀ l : List Char,
    (∀ s t, l ≠ s ++ '<' :: '/' :: 'b' :: '>' :: '<' :: '/' :: 'b' :: '>' :: t) →
    collapseBBc l = l := by
  intro l
  induction l using collapseBBc.induct with
  | case1 rest ih =>
    intro h
    exact absurd rfl (h [] rest)
  | case2 c rest hg ih =>
    intro h
    rw [collapseBBc.eq_2 c rest hg, ih fun s t e => h (c :: s) t (by rw [e]; rfl)]
  | case3 =>
    intro h
    rfl

theorem genericHtml_no_doubles (p : List Char) (hp : ∀ c ∈ p, c ≠ '<') :
    (∀ s t, genericHtml p ≠ s ++ '<' :: 'b' :: '>' :: '<' :: 'b' :: '>' :: t) ∧
    (∀ s t, genericHtml p ≠ s ++ '<' :: '/' :: 'b' :: '>' :: '<' :: '/' :: 'b' :: '>' :: t) := by
  have htf : ∀ t ∈ nlToks p, t ≠ Tok.tagOpen ∧ t ≠ Tok.tagClose := by
    intro t ht
    rcases List.mem_map.mp ht with ⟨d, hd, hfd⟩
    constructor <;> (intro he; rw [he] at hfd; by_cases hd' : d = '\n' <;>
      simp [hd'] at hfd)
  have hsplit : splitOn2 '*' '*' (replaceNl p)
      = (splitToks (nlToks p)).map flatToks := by
    rw [replaceNl_flatToks, splitOn2_flatToks _ htf]
  have hchunks : ∀ c ∈ splitToks (nlToks p), ∀ t ∈ c, ¬ Tok.isTag t := by
    intro c hc t ht hti
    have hmem := mem_splitToks (nlToks p) c hc t ht
    rcases htf t hmem with ⟨h1, h2⟩
    rcases hti with h | h
    exacts [h1 h, h2 h]
  have hjoined : boldJoin (splitOn2 '*' '*' (replaceNl p)) false
      = flatToks (boldToks (splitToks (nlToks p)) false) := by
    rw [hsplit, boldJoin_flatToks]
  have hchain := chain'_boldToks (splitToks (nlToks p)) false hchunks
  have hch : ∀ e, Tok.ch e ∈ boldToks (splitToks (nlToks p)) false → e ≠ '<' := by
    intro e hmem
    rcases mem_boldToks _ false (Tok.ch e) hmem with h | h | ⟨c, hc, ht⟩
    · cases h
    · cases h
    · have hin := mem_splitToks (nlToks p) c hc _ ht
      rcases List.mem_map.mp hin with ⟨d, hd, hfd⟩
      by_cases hd' : d = '\n'
      · rw [if_pos hd'] at hfd
        cases hfd
      · rw [if_neg hd'] at hfd
        obtain rfl := Tok.ch.inj hfd
        exact hp d hd
  have hopen := flat_no_double_open _ hch hchain
  have hclose := flat_no_double_close _ hch hchain
  have hBB : collapseBB (boldJoin (splitOn2 '*' '*' (replaceNl p)) false)
      = boldJoin (splitOn2 '*' '*' (replaceNl p)) false :=
    collapseBB_eq_self _ (by rw [hjoined]; exact hopen)
  have hgen : genericHtml p = boldJoin (splitOn2 '*' '*' (replaceNl p)) false := by
    rw [genericHtml, hBB]
    exact collapseBBc_eq_self _ (by rw [hjoined]; exact hclose)
  constructor
  · intro s t
    rw [hgen, hjoined]
    exact hopen s t
  · intro s t
    rw [hgen, hjoined]
    exact hclose s t

theorem flatToks_map_ch (y : List Char) : flatToks (y.map Tok.ch) = y := by
  induction y with
  | nil => rfl
  | cons c y ih =>
    rw [List.map_cons, flatToks_cons, ih]
    rfl

theorem headerHtml_no_doubles (y z : List Char)
    (hy : ∀ c ∈ y, c ≠ '<') (hz : ∀ c ∈ z, c ≠ '<') :
    (∀ s t, ('<' :: 'b' :: '>' ::
        (y ++ '<' :: '/' :: 'b' :: '>' :: '<' :: 'b' :: 'r' :: '/' :: '>' :: replaceNl z))
      ≠ s ++ '<' :: 'b' :: '>' :: '<' :: 'b' :: '>' :: t) ∧
    (∀ s t, ('<' :: 'b' :: '>' ::
        (y ++ '<' :: '/' :: 'b' :: '>' :: '<' :: 'b' :: 'r' :: '/' :: '>' :: replaceNl z))
      ≠ s ++ '<' :: '/' :: 'b' :: '>' :: '<' :: '/' :: 'b' :: '>' :: t) := by
  have hzt : ∀ t ∈ nlToks z, ¬ Tok.isTag t := by
    intro t ht hti
    rcases List.mem_map.mp ht with ⟨d, hd, hfd⟩
    rcases hti with h | h <;> (rw [h] at hfd; by_cases hd' : d = '\n' <;>
      simp [hd'] at hfd)
  have hyt : ∀ t ∈ y.map Tok.ch, ¬ Tok.isTag t := by
    intro t ht hti
    rcases List.mem_map.mp ht with ⟨d, hd, hfd⟩
    rcases hti with h | h <;> (rw [h] at hfd; cases hfd)
  have hflat : ('<' :: 'b' :: '>' ::
        (y ++ '<' :: '/' :: 'b' :: '>' :: '<' :: 'b' :: 'r' :: '/' :: '>' :: replaceNl z))
      = flatToks (Tok.tagOpen ::
          (y.map Tok.ch ++ Tok.tagClose :: Tok.lineBr :: nlToks z)) := by
    rw [flatToks_cons, flatToks_append, flatToks_map_ch, flatToks_cons, flatToks_cons,
      replaceNl_flatToks]
    rfl
  have hch : ∀ e, Tok.ch e ∈ (Tok.tagOpen ::
      (y.map Tok.ch ++ Tok.tagClose :: Tok.lineBr :: nlToks z)) → e ≠ '<' := by
    intro e hmem
    rcases List.mem_cons.mp hmem with h | h
    · cases h
    rcases List.mem_append.mp h with h | h
    · rcases List.mem_map.mp h with ⟨d, hd, hfd⟩
      obtain rfl := Tok.ch.inj hfd
      exact hy d hd
    rcases List.mem_cons.mp h with h | h
    · cases h
    rcases List.mem_cons.mp h with h | h
    · cases h
    rcases List.mem_map.mp h with ⟨d, hd, hfd⟩
    by_cases hd' : d = '\n'
    · rw [if_pos hd'] at hfd
      cases hfd
    · rw [if_neg hd'] at hfd
      obtain rfl := Tok.ch.inj hfd
      exact hz d hd
  have hchain : List.Chain' okPair (Tok.tagOpen ::
      (y.map Tok.ch ++ Tok.tagClose :: Tok.lineBr :: nlToks z)) := by
    rw [List.chain'_cons']
    constructor
    · intro b hb
      apply okPair_open_of_ne
      intro hb0
      subst hb0
      cases y with
      | nil => simp at hb
      | cons c y' => simp at hb
    · rw [List.chain'_append]
      refine ⟨chain'_of_untagged _ hyt, ?_, ?_⟩
      · rw [List.chain'_cons]
        refine ⟨okPair_close_of_ne (by intro h; cases h), ?_⟩
        rw [List.chain'_cons']
        refine ⟨?_, chain'_of_untagged _ hzt⟩
        intro b hb
        exact okPair_of_left (by intro h; rcases h with h | h <;> cases h) b
      · intro x hx b hb
        exact okPair_of_left (hyt x (List.mem_of_mem_getLast? hx)) b
  rw [hflat]
  exact ⟨flat_no_double_open _ hch hchain, flat_no_double_close _ hch hchain⟩

/-- C7: for any block whose text contains no literal `'<'` (so that every
bold marker in the output was produced by the emphasis conversion itself),
the translated markup contains no two consecutive `<b>` markers and no two
consecutive `</b>` markers — on both the generic path and the header fast
path; in particular `"x****y"` leaves no doubled markers. -/
theorem c7_no_doubled_markers (first p : List Char) (hp : ∀ c ∈ p, c ≠ '<') :
    ¬ (strL "<b><b>" <:+: blockHtml first p) ∧
    ¬ (strL "</b></b>" <:+: blockHtml first p) := by
  have key : (∀ s t, blockHtml first p
        ≠ s ++ '<' :: 'b' :: '>' :: '<' :: 'b' :: '>' :: t) ∧
      (∀ s t, blockHtml first p
        ≠ s ++ '<' :: '/' :: 'b' :: '>' :: '<' :: '/' :: 'b' :: '>' :: t) := by
    rw [blockHtml]
    by_cases hpf : p = first
    · rw [if_pos hpf]
      rcases hsp : splitOn2B '*' '*' 2 p with _ | ⟨x, _ | ⟨yy, _ | ⟨zz, _ | ⟨w, l⟩⟩⟩⟩
      · exact genericHtml_no_doubles p hp
      · exact genericHtml_no_doubles p hp
      · exact genericHtml_no_doubles p hp
      · have hy : ∀ e ∈ yy, e ≠ '<' := fun e he =>
          hp e (splitOn2B_subset '*' '*' 2 p yy (by rw [hsp]; simp) e he)
        have hz : ∀ e ∈ zz, e ≠ '<' := fun e he =>
          hp e (splitOn2B_subset '*' '*' 2 p zz (by rw [hsp]; simp) e he)
        exact headerHtml_no_doubles yy zz hy hz
      · exact genericHtml_no_doubles p hp
    · rw [if_neg hpf]
      exact genericHtml_no_doubles p hp
  constructor
  · rintro ⟨s, t, hst⟩
    exact key.1 s t (by rw [← hst, List.append_assoc]; rfl)
  · rintro ⟨s, t, hst⟩
    exact key.2 s t (by rw [← hst, List.append_assoc]; rfl)

/-- Witness for C7 at the spec's crafted input `"x****y"` (as a first
block, where it takes the header fast path). -/
theorem c7_no_doubled_markers_witness :
    (∀ c ∈ strL "x****y", c ≠ '<') ∧
    ¬ (strL "<b><b>" <:+: blockHtml (strL "x****y") (strL "x****y")) ∧
    ¬ (strL "</b></b>" <:+: blockHtml (strL "x****y") (strL "x****y")) :=
  ⟨by decide, (c7_no_doubled_markers (strL "x****y") (strL "x****y") (by decide)).1,
   (c7_no_doubled_markers (strL "x****y") (strL "x****y") (by decide)).2⟩

end CoverLetterGen

